import Mathlib

/-!
Verification development for the Discord GDPR data analyzer
(src/ExtractData_v4.py, with src/ExtractData_v3.py as the earlier
near-duplicate generation).  The Python source is shallowly embedded:
pure helpers become Lean functions, the sqlite tables become association
lists keyed by their primary-key column, and the stateful
`process_folder` / `run` methods become explicit state-passing
functions.  All definitions are executable so that concrete runs of the
analyzer can be evaluated inside proofs.
-/

namespace DiscordRecap

/-- TARGET_YEAR configuration constant (ExtractData_v4.py line 18). -/
def TARGET_YEAR : Nat := 2025

/-! ## Timestamp parsing

`datetime.strptime(timestamp_str, "%Y-%m-%d %H:%M:%S")` in CPython
compiles the format to a regex: `%Y` is exactly four digits, `%m` is
`1[0-2]|0[1-9]|[1-9]`, `%d` is `3[01]|[12]\d|0[1-9]|[1-9]`, `%H` is
`2[0-3]|[0-1]\d|\d`, `%M` and `%S` are `[0-5]\d|\d`, a literal space in
the format matches one or more whitespace characters, and the whole
string must be consumed.  The resulting field values are then passed to
the `datetime` constructor, which additionally validates the day of
month against the (leap-year aware) month length and requires year ≥ 1.
Because every two-digit alternative consumes a digit while the character
that must follow each field is a non-digit delimiter, the regex engine
never needs to backtrack from a successful two-digit alternative to the
one-digit one, so ordered choice with longest-first is exact here.
-/

/-- Numeric value of a decimal digit character. -/
def digitVal (c : Char) : Nat := c.toNat - 48

/-- Parse exactly four decimal digits (the %Y directive). -/
def parse4Digits : List Char → Option (Nat × List Char)
  | a :: b :: c :: d :: rest =>
    if a.isDigit ∧ b.isDigit ∧ c.isDigit ∧ d.isDigit then
      some (digitVal a * 1000 + digitVal b * 100 + digitVal c * 10 + digitVal d, rest)
    else none
  | _ => none

/-- Parse a month per the %m directive, two-digit alternatives first. -/
def parseMonth : List Char → Option (Nat × List Char)
  | [] => none
  | c1 :: rest1 =>
    match rest1 with
    | c2 :: rest2 =>
      if c1 = '1' ∧ '0' ≤ c2 ∧ c2 ≤ '2' then some (10 + digitVal c2, rest2)
      else if c1 = '0' ∧ '1' ≤ c2 ∧ c2 ≤ '9' then some (digitVal c2, rest2)
      else if '1' ≤ c1 ∧ c1 ≤ '9' then some (digitVal c1, rest1)
      else none
    | [] =>
      if '1' ≤ c1 ∧ c1 ≤ '9' then some (digitVal c1, []) else none

/-- Parse a day of month per the %d directive. -/
def parseDay : List Char → Option (Nat × List Char)
  | [] => none
  | c1 :: rest1 =>
    match rest1 with
    | c2 :: rest2 =>
      if c1 = '3' ∧ '0' ≤ c2 ∧ c2 ≤ '1' then some (30 + digitVal c2, rest2)
      else if ('1' ≤ c1 ∧ c1 ≤ '2') ∧ c2.isDigit then some (digitVal c1 * 10 + digitVal c2, rest2)
      else if c1 = '0' ∧ '1' ≤ c2 ∧ c2 ≤ '9' then some (digitVal c2, rest2)
      else if '1' ≤ c1 ∧ c1 ≤ '9' then some (digitVal c1, rest1)
      else none
    | [] =>
      if '1' ≤ c1 ∧ c1 ≤ '9' then some (digitVal c1, []) else none

/-- Parse an hour per the %H directive. -/
def parseHour : List Char → Option (Nat × List Char)
  | [] => none
  | c1 :: rest1 =>
    match rest1 with
    | c2 :: rest2 =>
      if c1 = '2' ∧ '0' ≤ c2 ∧ c2 ≤ '3' then some (20 + digitVal c2, rest2)
      else if ('0' ≤ c1 ∧ c1 ≤ '1') ∧ c2.isDigit then some (digitVal c1 * 10 + digitVal c2, rest2)
      else if c1.isDigit then some (digitVal c1, rest1)
      else none
    | [] =>
      if c1.isDigit then some (digitVal c1, []) else none

/-- Parse a minute or second per the %M / %S directives. -/
def parseSixty : List Char → Option (Nat × List Char)
  | [] => none
  | c1 :: rest1 =>
    match rest1 with
    | c2 :: rest2 =>
      if ('0' ≤ c1 ∧ c1 ≤ '5') ∧ c2.isDigit then some (digitVal c1 * 10 + digitVal c2, rest2)
      else if c1.isDigit then some (digitVal c1, rest1)
      else none
    | [] =>
      if c1.isDigit then some (digitVal c1, []) else none

/-- Expect one literal character. -/
def expectChar (c : Char) : List Char → Option (List Char)
  | x :: rest => if x = c then some rest else none
  | [] => none

/-- Python regex whitespace class over ASCII: space, tab, newline,
carriage return, vertical tab, form feed. -/
def isPySpace (c : Char) : Bool :=
  c = ' ' ∨ c = '\t' ∨ c = '\n' ∨ c = '\r' ∨ c = Char.ofNat 11 ∨ c = Char.ofNat 12

/-- A literal space in a strptime format matches one or more whitespace
characters. -/
def skipSpaces1 : List Char → Option (List Char)
  | c :: rest => if isPySpace c then some (rest.dropWhile isPySpace) else none
  | [] => none

/-- Gregorian leap-year test, as used by the datetime constructor. -/
def isLeapYear (y : Nat) : Bool :=
  (y % 4 = 0 ∧ y % 100 ≠ 0) ∨ y % 400 = 0

/-- Length of a month, as validated by the datetime constructor. -/
def daysInMonth (y m : Nat) : Nat :=
  if m = 2 then (if isLeapYear y then 29 else 28)
  else if m = 4 ∨ m = 6 ∨ m = 9 ∨ m = 11 then 30
  else 31

/-- Parsed timestamp value. -/
structure DateTime where
  year : Nat
  month : Nat
  day : Nat
  hour : Nat
  minute : Nat
  second : Nat
deriving Repr, DecidableEq

/-- Model of datetime.strptime with format "%Y-%m-%d %H:%M:%S": returns
some parsed value on success and none where CPython raises ValueError
(either a regex mismatch, unconverted trailing data, or an out-of-range
date rejected by the datetime constructor). -/
def strptimeYMDHMS (s : String) : Option DateTime := do
  let (y, r) ← parse4Digits s.data
  let r ← expectChar '-' r
  let (mo, r) ← parseMonth r
  let r ← expectChar '-' r
  let (d, r) ← parseDay r
  let r ← skipSpaces1 r
  let (h, r) ← parseHour r
  let r ← expectChar ':' r
  let (mi, r) ← parseSixty r
  let r ← expectChar ':' r
  let (se, r) ← parseSixty r
  if r = [] ∧ 1 ≤ y ∧ d ≤ daysInMonth y mo then
    some ⟨y, mo, d, h, mi, se⟩
  else none

/-- DiscordAnalyzer.is_target_year (v4 lines 158-164): true exactly when
the timestamp parses and its year equals TARGET_YEAR; a parse failure
yields false via the bare except. -/
def is_target_year (timestamp_str : String) : Bool :=
  match strptimeYMDHMS timestamp_str with
  | some dt => dt.year = TARGET_YEAR
  | none => false

/-- DiscordAnalyzer.parse_timestamp (v4 lines 166-172): year, month, day
components, or a triple of none on parse failure. -/
def parse_timestamp (timestamp_str : String) : Option Nat × Option Nat × Option Nat :=
  match strptimeYMDHMS timestamp_str with
  | some dt => (some dt.year, some dt.month, some dt.day)
  | none => (none, none, none)

/-! ## Feature extractors -/

/-- Split at the first colon: the characters before it and the
characters after it, or none when no colon occurs.  This is how the
greedy `[^:]+` followed by a literal colon resolves in the re module:
the capture is forced to be exactly the run up to the first colon. -/
def splitAtColon : List Char → Option (List Char × List Char)
  | [] => none
  | c :: rest =>
    if c = ':' then some ([], rest)
    else
      match splitAtColon rest with
      | some (nm, rest2) => some (c :: nm, rest2)
      | none => none

/-- Maximal leading digit run and the remainder, modelling greedy
`\d+` (whose match is forced to the maximal run when followed by a
non-digit literal). -/
def spanDigits : List Char → List Char × List Char
  | [] => ([], [])
  | c :: rest =>
    if c.isDigit then
      let (ds, r) := spanDigits rest
      (c :: ds, r)
    else ([], c :: rest)

/-- Match the emote token grammar at the position just after the opening
bracket and the colon, i.e. against the remainder of the regex
`([^:]+):(\d+)>`: a nonempty non-colon run ending at a colon, then a
nonempty digit run ending at a closing angle bracket.  Returns the two
capture groups and the unconsumed remainder. -/
def matchEmoteAfterColon (cs : List Char) : Option (String × String × List Char) :=
  match splitAtColon cs with
  | none => none
  | some (name, rest2) =>
    if name = [] then none
    else
      match spanDigits rest2 with
      | (digits, '>' :: rest4) =>
        if digits = [] then none else some (String.mk name, String.mk digits, rest4)
      | _ => none

/-- Attempt to match the emote regex anchored at the start of the list.
The optional animated flag is only consumed when immediately followed by
a colon, exactly as the ordered-choice backtracking of re resolves the
question mark here. -/
def matchEmote (cs : List Char) : Option (String × String × List Char) :=
  match cs with
  | '<' :: 'a' :: ':' :: rest => matchEmoteAfterColon rest
  | '<' :: ':' :: rest => matchEmoteAfterColon rest
  | _ => none

theorem splitAtColon_shrinks :
    ∀ (cs nm rest2 : List Char), splitAtColon cs = some (nm, rest2) →
      rest2.length < cs.length := by
  intro cs
  induction cs with
  | nil => intro nm rest2 h; simp [splitAtColon] at h
  | cons c rest ih =>
    intro nm rest2 h
    unfold splitAtColon at h
    split at h
    · simp at h
      obtain ⟨h1, h2⟩ := h
      subst h2
      simp
    · split at h
      · rename_i nm1 r1 heq
        simp at h
        have := ih nm1 rest2 (by rw [heq, h.2])
        simp
        omega
      · exact absurd h (by simp)

theorem spanDigits_snd_le (cs : List Char) : (spanDigits cs).2.length ≤ cs.length := by
  induction cs with
  | nil => simp [spanDigits]
  | cons c rest ih =>
    unfold spanDigits
    split
    · simp
      omega
    · simp

theorem matchEmoteAfterColon_shrinks (cs : List Char) (n i : String) (rem : List Char)
    (h : matchEmoteAfterColon cs = some (n, i, rem)) : rem.length < cs.length := by
  unfold matchEmoteAfterColon at h
  split at h
  · exact absurd h (by simp)
  · rename_i name rest2 hsplit
    split at h
    · exact absurd h (by simp)
    · split at h
      · rename_i digits rest4 hspan
        split at h
        · exact absurd h (by simp)
        · simp at h
          obtain ⟨hn, hi, hrem⟩ := h
          subst hrem
          have h1 : rest4.length + 1 ≤ rest2.length := by
            have := spanDigits_snd_le rest2
            rw [hspan] at this
            simpa using this
          have h2 := splitAtColon_shrinks cs name rest2 hsplit
          omega
      · exact absurd h (by simp)

theorem matchEmote_shrinks (cs : List Char) (n i : String) (rem : List Char)
    (h : matchEmote cs = some (n, i, rem)) : rem.length < cs.length := by
  unfold matchEmote at h
  split at h
  · have := matchEmoteAfterColon_shrinks _ _ _ _ h
    simp
    omega
  · have := matchEmoteAfterColon_shrinks _ _ _ _ h
    simp
    omega
  · exact absurd h (by simp)

/-- Scanning semantics of re.findall, fuelled so that the recursion is
structural (the fuel is an artifact: by matchEmote_shrinks every
recursive call is on a strictly shorter list, so any fuel at least the
list length gives the same result, see findallEmotesFuel_congr): at each
position try the anchored match; on success emit the capture groups and
continue after the match, otherwise advance by one character. -/
def findallEmotesFuel : Nat → List Char → List (String × String)
  | _, [] => []
  | 0, _ :: _ => []
  | fuel + 1, c :: rest =>
    match matchEmote (c :: rest) with
    | some (n, i, rem) => (n, i) :: findallEmotesFuel fuel rem
    | none => findallEmotesFuel fuel rest

def findallEmotes (cs : List Char) : List (String × String) :=
  findallEmotesFuel cs.length cs

theorem findallEmotesFuel_congr :
    ∀ (fuel1 fuel2 : Nat) (cs : List Char), cs.length ≤ fuel1 → cs.length ≤ fuel2 →
      findallEmotesFuel fuel1 cs = findallEmotesFuel fuel2 cs := by
  intro fuel1
  induction fuel1 with
  | zero =>
    intro fuel2 cs h1 h2
    have : cs = [] := List.eq_nil_of_length_eq_zero (Nat.le_zero.mp h1)
    subst this
    cases fuel2 <;> rfl
  | succ f1 ih =>
    intro fuel2 cs h1 h2
    cases cs with
    | nil => cases fuel2 <;> rfl
    | cons c rest =>
      cases fuel2 with
      | zero => simp at h2
      | succ f2 =>
        simp only [findallEmotesFuel]
        cases hm : matchEmote (c :: rest) with
        | none =>
          simp only [List.length_cons] at h1 h2
          exact ih f2 rest (by omega) (by omega)
        | some v =>
          obtain ⟨n, i, rem⟩ := v
          have hlt := matchEmote_shrinks _ _ _ _ hm
          simp only [List.length_cons] at h1 h2 hlt
          dsimp only
          rw [ih f2 rem (by omega) (by omega)]

/-- One scanning step of findallEmotes, showing the fuel plays no role:
this is exactly the re.findall scan. -/
theorem findallEmotes_cons (c : Char) (rest : List Char) :
    findallEmotes (c :: rest) =
      match matchEmote (c :: rest) with
      | some (n, i, rem) => (n, i) :: findallEmotes rem
      | none => findallEmotes rest := by
  unfold findallEmotes
  simp only [List.length_cons, findallEmotesFuel]
  cases hm : matchEmote (c :: rest) with
  | none => rfl
  | some v =>
    obtain ⟨n, i, rem⟩ := v
    have hlt := matchEmote_shrinks _ _ _ _ hm
    simp only [List.length_cons] at hlt
    dsimp only
    rw [findallEmotesFuel_congr rest.length rem.length rem (by omega) (by omega)]

/-- DiscordAnalyzer.extract_emotes (v4 lines 174-181): list of
(name, id) pairs of every emote token in the content, in text order;
empty content yields the empty list. -/
def extract_emotes (content : String) : List (String × String) :=
  if content = "" then [] else findallEmotes content.data

/-- Whether the position at the start of the list matches the
file-extension regex `\.([a-zA-Z0-9]+)(?:\?|$)`: a dot whose following
maximal alphanumeric run is nonempty and is followed by a question mark
or the end of the string. -/
def extMatchAt (c : Char) (rest : List Char) : Bool :=
  c = '.' ∧ rest.takeWhile Char.isAlphanum ≠ [] ∧
    (rest.dropWhile Char.isAlphanum = [] ∨
      (rest.dropWhile Char.isAlphanum).head? = some '?')

/-- Search semantics of the file-extension regex under re.search: the
first matching position yields its captured alphanumeric run. -/
def fileExtSearch : List Char → Option String
  | [] => none
  | c :: rest =>
    if extMatchAt c rest then some (String.mk (rest.takeWhile Char.isAlphanum))
    else fileExtSearch rest

/-- Split a character list at every comma or newline, keeping empty
segments; this models attachments.replace(readable: comma to newline)
followed by split on newline. -/
def splitCN (cs : List Char) : List (List Char) :=
  cs.foldr
    (fun c acc =>
      if c = ',' ∨ c = '\n' then [] :: acc
      else
        match acc with
        | seg :: rest => (c :: seg) :: rest
        | [] => [[c]])
    [[]]

/-- Python str.strip with no argument: drop leading and trailing
whitespace. -/
def pyStrip (cs : List Char) : List Char :=
  ((cs.dropWhile isPySpace).reverse.dropWhile isPySpace).reverse

/-- Python str.lower over the ASCII alphanumeric runs produced by the
extension regex. -/
def lowerString (s : String) : String := String.mk (s.data.map Char.toLower)

/-- DiscordAnalyzer.extract_file_types (v4 lines 183-202): split the raw
attachment string on commas and newlines, strip each segment, skip empty
ones, and for each remaining segment take the regex search result
lower-cased; segments without a match contribute nothing. -/
def extract_file_types (attachments : String) : List String :=
  if attachments = "" then []
  else
    ((splitCN attachments.data).map pyStrip).filterMap fun url =>
      if url = [] then none
      else (fileExtSearch url).map lowerString

/-! ## Counter Store

Each sqlite table is modelled as an association list keyed by its
primary-key column, in row-insertion order: a plain INSERT appends at
the end, ON CONFLICT DO UPDATE and INSERT OR REPLACE update the existing
row in place, INSERT OR IGNORE leaves an existing row untouched.
-/

/-- Lookup by primary key (first matching row). -/
def lookupA {α : Type} (k : String) : List (String × α) → Option α
  | [] => none
  | (k1, v) :: rest => if k1 = k then some v else lookupA k rest

/-- Upsert: replace the value of an existing key in place, or append a
new row at the end. -/
def setAssoc {α : Type} (k : String) (v : α) : List (String × α) → List (String × α)
  | [] => [(k, v)]
  | (k1, v1) :: rest => if k1 = k then (k, v) :: rest else (k1, v1) :: setAssoc k v rest

/-- Row of the emotes table (emote_id is the key). -/
structure EmoteRow where
  emoteName : String
  usageCount : Nat
deriving Repr, DecidableEq

/-- Row of the channels table (folder_name is the key). -/
structure ChannelRow where
  channelId : String
  channelType : String
  channelName : String
  serverId : Option String
  serverName : Option String
  recipients : Option (List String)
  messageCount : Nat
  messagesWithAttachments : Nat
  processed : Bool
deriving Repr, DecidableEq

/-- Row of the optional messages table (message_id is the key). -/
structure MessageRow where
  folderName : String
  timestamp : String
  year : Option Nat
  month : Option Nat
  day : Option Nat
  hasContent : Bool
  hasAttachments : Bool
deriving Repr, DecidableEq

/-- The whole database. -/
structure DB where
  channels : List (String × ChannelRow)
  users : List (String × String)
  emotes : List (String × EmoteRow)
  fileTypes : List (String × Nat)
  messages : List (String × MessageRow)
deriving Repr, DecidableEq

/-- DiscordAnalyzer.update_emote_count (v4 lines 204-213): INSERT a new
row with usage_count = count, ON CONFLICT add count to usage_count and
overwrite emote_name with the latest-seen name. -/
def update_emote_count (emotes : List (String × EmoteRow)) (emote_name emote_id : String)
    (count : Nat) : List (String × EmoteRow) :=
  match lookupA emote_id emotes with
  | none => emotes ++ [(emote_id, ⟨emote_name, count⟩)]
  | some row => setAssoc emote_id ⟨emote_name, row.usageCount + count⟩ emotes

/-- DiscordAnalyzer.update_file_type_count (v4 lines 215-223): INSERT a
new row with the given count, ON CONFLICT add it to the stored count. -/
def update_file_type_count (fileTypes : List (String × Nat)) (extension : String)
    (count : Nat) : List (String × Nat) :=
  match lookupA extension fileTypes with
  | none => fileTypes ++ [(extension, count)]
  | some c => setAssoc extension (c + count) fileTypes

/-- INSERT OR IGNORE INTO messages (v4 lines 313-325): append a new row,
or keep the existing row for the same message_id untouched. -/
def insertMessageIfAbsent (table : List (String × MessageRow)) (mid : String)
    (row : MessageRow) : List (String × MessageRow) :=
  match lookupA mid table with
  | none => table ++ [(mid, row)]
  | some _ => table

/-- DiscordAnalyzer.store_user_mapping (v4 lines 147-156): INSERT OR
REPLACE, skipped entirely when either argument is falsy (empty). -/
def store_user_mapping (users : List (String × String)) (user_id username : String) :
    List (String × String) :=
  if user_id = "" ∨ username = "" then users
  else setAssoc user_id username users

/-! ## Input data model

A message object is read with dict.get defaults, so an absent field is
the empty string.  A channel descriptor is read field by field with
dict.get; optional fields are Option-valued, and the recipients list
defaults to the empty list.
-/

/-- One message of messages.json. -/
structure Msg where
  timestamp : String
  contents : String
  attachments : String
  id : String
deriving Repr, DecidableEq

/-- Parsed channel.json contents. -/
structure ChannelData where
  ctype : Option String
  cid : Option String
  cname : Option String
  recipients : List String
  guildId : Option String
  guildName : Option String
deriving Repr, DecidableEq

/-- One conversation folder of the export, together with the two
file-existence facts the processor checks before reading. -/
structure Folder where
  folderName : String
  hasChannelFile : Bool
  hasMessagesFile : Bool
  channelData : ChannelData
  messages : List Msg
deriving Repr, DecidableEq

/-- Analyzer state: the database plus the three run counters. -/
structure AState where
  db : DB
  processedCount : Nat
  skippedCount : Nat
  errorCount : Nat
deriving Repr, DecidableEq

/-- Lexicographic code-point comparison of character lists (at most):
this is how Python compares strings. -/
def charListLe : List Char → List Char → Bool
  | [], _ => true
  | _ :: _, [] => false
  | c1 :: r1, c2 :: r2 =>
    if c1 = c2 then charListLe r1 r2 else decide (c1 < c2)

/-- Python string comparison, code point by code point. -/
def strLe (a b : String) : Bool := charListLe a.data b.data

/-- Insertion into a sorted list of strings, ascending. -/
def insertSortedStr (x : String) : List String → List String
  | [] => [x]
  | y :: rest => if strLe x y then x :: y :: rest else y :: insertSortedStr x rest

/-- Python sorted() on a list of strings: ascending lexicographic
order. -/
def sortStrings (l : List String) : List String :=
  l.foldr insertSortedStr []

/-- DiscordAnalyzer._mark_processed (v4 lines 416-442): INSERT OR
REPLACE the full channels row with processed = 1; DM and group-DM rows
carry the sorted recipients and no server fields, any other row carries
the guild fields and no recipients. -/
def mark_processed (channels : List (String × ChannelRow)) (folder_name : String)
    (cd : ChannelData) (count attachments_count : Nat) : List (String × ChannelRow) :=
  let channel_type := cd.ctype.getD "UNKNOWN"
  let channel_id := cd.cid.getD ""
  let channel_name := cd.cname.getD ""
  if channel_type = "DM" ∨ channel_type = "GROUP_DM" then
    setAssoc folder_name
      ⟨channel_id, channel_type, channel_name, none, none,
        some (sortStrings cd.recipients), count, attachments_count, true⟩ channels
  else
    setAssoc folder_name
      ⟨channel_id, channel_type, channel_name, cd.guildId, cd.guildName,
        none, count, attachments_count, true⟩ channels

/-- is_conversation_completed: the processed flag of the channels row,
false when the row is absent (the `result and result[0] == 1` check of
v4 lines 230-233). -/
def is_conversation_completed (db : DB) (folder_name : String) : Bool :=
  ((lookupA folder_name db.channels).map (fun r => r.processed)).getD false

/-! ## Conversation Processor -/

/-- Python str.replace for a nonempty pattern: replace every
non-overlapping occurrence, scanning left to right.  Fuelled so that the
recursion is structural; the fuel is an artifact (any fuel at least the
list length gives the same result, see replaceListFuel_congr). -/
def replaceListFuel (pat rep : List Char) : Nat → List Char → List Char
  | _, [] => []
  | 0, cs => cs
  | fuel + 1, c :: rest =>
    if pat ≠ [] ∧ pat.isPrefixOf (c :: rest) then
      rep ++ replaceListFuel pat rep fuel ((c :: rest).drop pat.length)
    else c :: replaceListFuel pat rep fuel rest

def replaceList (pat rep cs : List Char) : List Char :=
  replaceListFuel pat rep cs.length cs

theorem replaceListFuel_congr (pat rep : List Char) :
    ∀ (fuel1 fuel2 : Nat) (cs : List Char), cs.length ≤ fuel1 → cs.length ≤ fuel2 →
      replaceListFuel pat rep fuel1 cs = replaceListFuel pat rep fuel2 cs := by
  intro fuel1
  induction fuel1 with
  | zero =>
    intro fuel2 cs h1 h2
    have : cs = [] := List.eq_nil_of_length_eq_zero (Nat.le_zero.mp h1)
    subst this
    cases fuel2 <;> rfl
  | succ f1 ih =>
    intro fuel2 cs h1 h2
    cases cs with
    | nil => cases fuel2 <;> rfl
    | cons c rest =>
      cases fuel2 with
      | zero => simp at h2
      | succ f2 =>
        simp only [replaceListFuel]
        simp only [List.length_cons] at h1 h2
        by_cases hp : pat ≠ [] ∧ pat.isPrefixOf (c :: rest)
        · rw [if_pos hp, if_pos hp]
          have hp1 : 1 ≤ pat.length := by
            cases hpat : pat with
            | nil => exact absurd hpat hp.1
            | cons x xs => simp
          have hlen : ((c :: rest).drop pat.length).length ≤ rest.length := by
            simp only [List.length_drop, List.length_cons]
            omega
          rw [ih f2 _ (by omega) (by omega)]
        · rw [if_neg hp, if_neg hp, ih f2 rest (by omega) (by omega)]

/-- One step of replaceList, showing the fuel plays no role. -/
theorem replaceList_cons (pat rep : List Char) (c : Char) (rest : List Char) :
    replaceList pat rep (c :: rest) =
      if pat ≠ [] ∧ pat.isPrefixOf (c :: rest) then
        rep ++ replaceList pat rep ((c :: rest).drop pat.length)
      else c :: replaceList pat rep rest := by
  unfold replaceList
  simp only [List.length_cons, replaceListFuel]
  by_cases hp : pat ≠ [] ∧ pat.isPrefixOf (c :: rest)
  · rw [if_pos hp, if_pos hp]
    have hp1 : 1 ≤ pat.length := by
      cases hpat : pat with
      | nil => exact absurd hpat hp.1
      | cons x xs => simp
    rw [replaceListFuel_congr pat rep rest.length ((c :: rest).drop pat.length).length _
      (by simp only [List.length_drop, List.length_cons]; omega) (le_refl _)]
  · rw [if_neg hp, if_neg hp]

/-- The DM label marker used by extract_username_from_dm_label. -/
def dmMarker : String := "Direct Message with "

/-- DiscordAnalyzer.extract_username_from_dm_label (v4 lines 131-145):
None for a falsy label; for a label starting with the DM marker, remove
every occurrence of the marker text (str.replace replaces all
occurrences) and drop a trailing legacy discriminator suffix; any other
label is returned as-is. -/
def extract_username_from_dm_label (label : String) : Option String :=
  if label = "" then none
  else if dmMarker.data.isPrefixOf label.data then
    let username := String.mk (replaceList dmMarker.data [] label.data)
    let username :=
      if ("#0".data).isSuffixOf username.data then
        String.mk (username.data.take (username.data.length - 2))
      else username
    some username
  else some label

/-- Record built for the optional messages table from one in-scan
message (v4 lines 310-325). -/
def msgRowOf (folder_name : String) (m : Msg) : MessageRow :=
  let (y, mo, d) := parse_timestamp m.timestamp
  ⟨folder_name, m.timestamp, y, mo, d, m.contents ≠ "", m.attachments ≠ ""⟩

/-- Per-conversation scan accumulators (v4 lines 283-288) plus the
messages table, which the scan writes directly when storing individual
messages is requested. -/
structure ScanAcc where
  count : Nat
  withAttach : Nat
  emoteCounts : List (String × Nat)
  emoteNames : List (String × String)
  fileTypeCounts : List (String × Nat)
  msgTable : List (String × MessageRow)
deriving Repr, DecidableEq

/-- Per-message update of the emote_counts defaultdict: each extracted
emote bumps the count of its id by one.  The source updates emote_counts
and emote_names in a single loop over the extracted pairs; since the two
dicts are independent the loop is split into one fold per dict here. -/
def emoteCountsStep (t : List (String × Nat)) (m : Msg) : List (String × Nat) :=
  (extract_emotes m.contents).foldl
    (fun t p => setAssoc p.2 ((lookupA p.2 t).getD 0 + 1) t) t

/-- Per-message update of the emote_names dict: latest name wins. -/
def emoteNamesStep (t : List (String × String)) (m : Msg) : List (String × String) :=
  (extract_emotes m.contents).foldl (fun t p => setAssoc p.2 p.1 t) t

/-- Whether a message counts as attachment-bearing: its extracted
file-type list is nonempty (v4 line 305). -/
def attachFlag (m : Msg) : Bool :=
  extract_file_types m.attachments ≠ []

/-- Per-message update of the file_type_counts defaultdict. -/
def fileTypeCountsStep (t : List (String × Nat)) (m : Msg) : List (String × Nat) :=
  (extract_file_types m.attachments).foldl
    (fun t e => setAssoc e ((lookupA e t).getD 0 + 1) t) t

/-- Per-message step of the scan body (v4 lines 292-325), for a message
already known to be in the target year. -/
def scanStep (folder_name : String) (store_messages : Bool) (acc : ScanAcc) (m : Msg) :
    ScanAcc :=
  { count := acc.count + 1
    withAttach := acc.withAttach + (if attachFlag m then 1 else 0)
    emoteCounts := emoteCountsStep acc.emoteCounts m
    emoteNames := emoteNamesStep acc.emoteNames m
    fileTypeCounts :=
      if attachFlag m then fileTypeCountsStep acc.fileTypeCounts m else acc.fileTypeCounts
    msgTable :=
      if store_messages then insertMessageIfAbsent acc.msgTable m.id (msgRowOf folder_name m)
      else acc.msgTable }

/-- The scan loop (v4 lines 290-328): process messages from the front
while is_target_year holds; the first message failing it breaks the
loop. -/
def scanMessages (folder_name : String) (store_messages : Bool) :
    ScanAcc → List Msg → ScanAcc
  | acc, [] => acc
  | acc, m :: rest =>
    if is_target_year m.timestamp then
      scanMessages folder_name store_messages (scanStep folder_name store_messages acc m) rest
    else acc

/-- Models the DM username-mapping block of v4 lines 349-393.  In
ExtractData_v4.py this block compares each recipient against the global
name USER_ID, which is defined nowhere in that file (it was a
module-level constant of ExtractData_v3.py; v4 replaced it by the
constructor argument self.user_id but the block still reads USER_ID).
Whenever the comparison is reached it raises NameError, which the
enclosing try/except of lines 350/388 swallows, and on every other path
the block falls through without calling store_user_mapping.  The users
table is therefore never written: the block is the identity on it. -/
def dm_mapping_block (users : List (String × String)) : List (String × String) :=
  users

/-- Modelled from the spec: the identity-resolution step of spec
sections 4.5 and 8, equivalently the v4 lines 349-393 block with the
undefined global USER_ID read as the configured self identity
(self.user_id).  For a DM conversation whose id has a label in the
index, the label is stripped to a candidate display name and attributed
to the first recipient different from the self identity; all failures
fall through silently. -/
def dm_mapping_intended (selfUserId : String) (indexData : List (String × String))
    (cd : ChannelData) (users : List (String × String)) : List (String × String) :=
  if cd.ctype = some "DM" ∨ cd.ctype = some "GROUP_DM" then
    match cd.cid with
    | none => users
    | some channel_id =>
      match lookupA channel_id indexData with
      | none => users
      | some label =>
        match extract_username_from_dm_label label with
        | none => users
        | some username =>
          if username ≠ "" ∧ cd.ctype = some "DM" then
            match cd.recipients.find? (fun r => r ≠ selfUserId) with
            | some other_user_id =>
              if other_user_id ≠ "" then store_user_mapping users other_user_id username
              else users
            | none => users
          else users
  else users

/-- DiscordAnalyzer.process_folder (v4 lines 225-414): the
per-conversation unit of work, as a function from analyzer state to
analyzer state.  File reads, json decoding and printing are outside the
model; a conversation folder carries its decoded contents plus the two
file-existence booleans the code checks. -/
def process_folder (s : AState) (indexData : List (String × String)) (f : Folder)
    (store_messages : Bool) : AState :=
  if is_conversation_completed s.db f.folderName then s
  else if f.hasChannelFile = false ∨ f.hasMessagesFile = false then
    { s with errorCount := s.errorCount + 1 }
  else
    match f.messages with
    | [] =>
      { s with
        skippedCount := s.skippedCount + 1
        db := { s.db with channels := mark_processed s.db.channels f.folderName f.channelData 0 0 } }
    | first_message :: _ =>
      match strptimeYMDHMS first_message.timestamp with
      | none => { s with errorCount := s.errorCount + 1 }
      | some first_dt =>
        if first_dt.year < TARGET_YEAR then
          { s with
            skippedCount := s.skippedCount + 1
            db := { s.db with
              channels := mark_processed s.db.channels f.folderName f.channelData 0 0 } }
        else
          let acc := scanMessages f.folderName store_messages
            ⟨0, 0, [], [], [], s.db.messages⟩ f.messages
          if acc.count = 0 then
            { s with
              skippedCount := s.skippedCount + 1
              db := { s.db with
                channels := mark_processed s.db.channels f.folderName f.channelData 0 0
                messages := acc.msgTable } }
          else
            { s with
              processedCount := s.processedCount + 1
              db :=
                { channels :=
                    mark_processed s.db.channels f.folderName f.channelData
                      acc.count acc.withAttach
                  users := dm_mapping_block s.db.users
                  emotes :=
                    acc.emoteCounts.foldl
                      (fun tb p =>
                        update_emote_count tb ((lookupA p.1 acc.emoteNames).getD "") p.1 p.2)
                      s.db.emotes
                  fileTypes :=
                    acc.fileTypeCounts.foldl
                      (fun tb p => update_file_type_count tb p.1 p.2) s.db.fileTypes
                  messages := acc.msgTable } }

/-- One full aggregation pass of DiscordAnalyzer.run (v4 lines 444-501):
apply process_folder to every candidate folder in listing order.
Progress reporting and the periodic commits do not change the modelled
state. -/
def runPass (s : AState) (indexData : List (String × String)) (folders : List Folder)
    (store_messages : Bool) : AState :=
  folders.foldl (fun st f => process_folder st indexData f store_messages) s

/-! ## Derived notions used by the statements -/

/-- Year of a message timestamp, when it parses. -/
def msgYear (m : Msg) : Option Nat :=
  (strptimeYMDHMS m.timestamp).map (fun dt => dt.year)

/-- The scan predicate of v4 line 292. -/
def isTargetMsg (m : Msg) : Bool := is_target_year m.timestamp

/-- All messages of a list whose timestamp year is the target year. -/
def targetMessages (msgs : List Msg) : List Msg := msgs.filter isTargetMsg

/-- Number of occurrences of the emote identity eid in one message. -/
def emoteOccurrencesInMsg (eid : String) (m : Msg) : Nat :=
  ((extract_emotes m.contents).filter (fun p => p.2 = eid)).length

/-- Number of occurrences of the emote identity eid across the
target-year messages of a conversation. -/
def emoteOccurrencesInFolder (eid : String) (f : Folder) : Nat :=
  ((targetMessages f.messages).map (emoteOccurrencesInMsg eid)).sum

/-- Number of occurrences of the extension e in one message. -/
def extOccurrencesInMsg (e : String) (m : Msg) : Nat :=
  ((extract_file_types m.attachments).filter (fun x => x = e)).length

/-- Number of occurrences of the extension e across the target-year
messages of a conversation. -/
def extOccurrencesInFolder (e : String) (f : Folder) : Nat :=
  ((targetMessages f.messages).map (extOccurrencesInMsg e)).sum

/-- Usage count stored for an emote identity, zero when absent. -/
def emoteUsage (t : List (String × EmoteRow)) (eid : String) : Nat :=
  ((lookupA eid t).map (fun r => r.usageCount)).getD 0

/-- Count stored for a file extension, zero when absent. -/
def extUsage (t : List (String × Nat)) (e : String) : Nat :=
  (lookupA e t).getD 0

/-- The aggregated per-conversation emote tallies a scan of the
conversation flushes to the store (one pair per distinct identity). -/
def perFolderEmoteFlush (f : Folder) (b : Bool) : List (String × Nat) :=
  (scanMessages f.folderName b ⟨0, 0, [], [], [], []⟩ f.messages).emoteCounts

/-- The aggregated per-conversation extension tallies a scan of the
conversation flushes to the store. -/
def perFolderExtFlush (f : Folder) (b : Bool) : List (String × Nat) :=
  (scanMessages f.folderName b ⟨0, 0, [], [], [], []⟩ f.messages).fileTypeCounts

/-- The messages the step-4 scan actually visits and counts: the maximal
prefix of the (newest-first) message list whose timestamp year equals
the target year. -/
def scannedMessages (msgs : List Msg) : List Msg := msgs.takeWhile isTargetMsg

/-- Occurrences of an emote identity across the scanned prefix of a
conversation. -/
def emoteOccurrencesScanned (eid : String) (f : Folder) : Nat :=
  ((scannedMessages f.messages).map (emoteOccurrencesInMsg eid)).sum

/-- Occurrences of an extension across the scanned prefix of a
conversation. -/
def extOccurrencesScanned (e : String) (f : Folder) : Nat :=
  ((scannedMessages f.messages).map (extOccurrencesInMsg e)).sum

/-! ## Association-list lemmas -/

theorem lookupA_setAssoc_self {α : Type} (k : String) (v : α) (t : List (String × α)) :
    lookupA k (setAssoc k v t) = some v := by
  induction t with
  | nil => simp [setAssoc, lookupA]
  | cons p rest ih =>
    obtain ⟨k1, v1⟩ := p
    by_cases h : k1 = k <;> simp [setAssoc, lookupA, h, ih]

theorem lookupA_setAssoc_other {α : Type} {k k2 : String} (v : α) (t : List (String × α))
    (h : k2 ≠ k) : lookupA k2 (setAssoc k v t) = lookupA k2 t := by
  induction t with
  | nil =>
    simp only [setAssoc, lookupA]
    rw [if_neg (fun hh => h hh.symm)]
  | cons p rest ih =>
    obtain ⟨k1, v1⟩ := p
    by_cases h1 : k1 = k
    · subst h1
      simp only [setAssoc, if_pos rfl, lookupA]
      rw [if_neg (fun hh => h hh.symm), if_neg (fun hh => h hh.symm)]
    · simp only [setAssoc, if_neg h1, lookupA]
      by_cases h2 : k1 = k2
      · simp [h2]
      · simp [h2, ih]

theorem lookupA_append {α : Type} (k : String) (t1 t2 : List (String × α)) :
    lookupA k (t1 ++ t2) =
      match lookupA k t1 with
      | some v => some v
      | none => lookupA k t2 := by
  induction t1 with
  | nil => simp [lookupA]
  | cons p rest ih =>
    obtain ⟨k1, v1⟩ := p
    by_cases h : k1 = k <;> simp [lookupA, h, ih]

theorem mem_keys_setAssoc {α : Type} {x k : String} (v : α) (t : List (String × α))
    (h : x ∈ (setAssoc k v t).map Prod.fst) : x = k ∨ x ∈ t.map Prod.fst := by
  induction t with
  | nil =>
    simp only [setAssoc, List.map_cons, List.map_nil] at h
    rcases List.mem_cons.mp h with h | h
    · exact Or.inl h
    · simp at h
  | cons p rest ih =>
    obtain ⟨k1, v1⟩ := p
    by_cases h1 : k1 = k
    · subst h1
      simp only [setAssoc, if_pos rfl, List.map_cons] at h
      rcases List.mem_cons.mp h with h | h
      · exact Or.inl h
      · exact Or.inr (List.mem_cons_of_mem _ h)
    · simp only [setAssoc, if_neg h1, List.map_cons] at h
      rcases List.mem_cons.mp h with h | h
      · exact Or.inr (h ▸ List.mem_cons_self _ _)
      · rcases ih h with h2 | h2
        · exact Or.inl h2
        · exact Or.inr (List.mem_cons_of_mem _ h2)

theorem nodup_keys_setAssoc {α : Type} {k : String} (v : α) {t : List (String × α)}
    (h : (t.map Prod.fst).Nodup) : ((setAssoc k v t).map Prod.fst).Nodup := by
  induction t with
  | nil => simp [setAssoc]
  | cons p rest ih =>
    obtain ⟨k1, v1⟩ := p
    simp only [List.map_cons, List.nodup_cons] at h
    by_cases h1 : k1 = k
    · subst h1
      simp only [setAssoc, eq_self_iff_true, if_true, List.map_cons, List.nodup_cons]
      exact h
    · simp only [setAssoc, if_neg h1, List.map_cons, List.nodup_cons]
      refine ⟨fun hm => ?_, ih h.2⟩
      rcases mem_keys_setAssoc v rest hm with h2 | h2
      · exact h1 h2
      · exact h.1 h2

theorem lookupA_eq_of_mem_nodup {α : Type} {k : String} {v : α} {t : List (String × α)}
    (hnd : (t.map Prod.fst).Nodup) (hm : (k, v) ∈ t) : lookupA k t = some v := by
  induction t with
  | nil => simp at hm
  | cons p rest ih =>
    obtain ⟨k1, v1⟩ := p
    simp only [List.map_cons, List.nodup_cons] at hnd
    rcases List.mem_cons.mp hm with h | h
    · rw [Prod.mk.injEq] at h
      obtain ⟨h1, h2⟩ := h
      subst h1
      subst h2
      simp [lookupA]
    · have hk1 : k1 ≠ k := by
        intro he
        subst he
        exact hnd.1 (by simpa using List.mem_map_of_mem Prod.fst h)
      simp [lookupA, hk1, ih hnd.2 h]

theorem lookupA_eq_none_of_not_mem_keys {α : Type} {k : String} {t : List (String × α)}
    (h : k ∉ t.map Prod.fst) : lookupA k t = none := by
  induction t with
  | nil => rfl
  | cons p rest ih =>
    obtain ⟨k1, v1⟩ := p
    simp only [List.map_cons, List.mem_cons] at h
    push_neg at h
    simp only [lookupA]
    rw [if_neg (fun he => h.1 he.symm), ih h.2]

/-! ## Store-update lemmas -/

theorem lookupA_update_emote_count_self (t : List (String × EmoteRow)) (nm k : String)
    (c : Nat) :
    lookupA k (update_emote_count t nm k c) = some ⟨nm, emoteUsage t k + c⟩ := by
  unfold update_emote_count
  cases h : lookupA k t with
  | none =>
    rw [lookupA_append]
    simp [h, lookupA, emoteUsage]
  | some row =>
    rw [lookupA_setAssoc_self]
    simp [emoteUsage, h]

theorem lookupA_update_emote_count_other (t : List (String × EmoteRow)) (nm k k2 : String)
    (c : Nat) (h : k2 ≠ k) :
    lookupA k2 (update_emote_count t nm k c) = lookupA k2 t := by
  unfold update_emote_count
  cases hl : lookupA k t with
  | none =>
    rw [lookupA_append]
    cases h2 : lookupA k2 t with
    | none =>
      simp only [h2, lookupA]
      rw [if_neg (fun hh => h hh.symm)]
    | some v => simp [h2]
  | some row => exact lookupA_setAssoc_other _ _ h

theorem emoteUsage_update_emote_count_self (t : List (String × EmoteRow)) (nm k : String)
    (c : Nat) : emoteUsage (update_emote_count t nm k c) k = emoteUsage t k + c := by
  unfold emoteUsage
  rw [lookupA_update_emote_count_self]
  rfl

theorem emoteUsage_update_emote_count_other (t : List (String × EmoteRow)) (nm k k2 : String)
    (c : Nat) (h : k2 ≠ k) :
    emoteUsage (update_emote_count t nm k c) k2 = emoteUsage t k2 := by
  unfold emoteUsage
  rw [lookupA_update_emote_count_other _ _ _ _ _ h]

theorem lookupA_update_file_type_count_self (t : List (String × Nat)) (k : String)
    (c : Nat) :
    lookupA k (update_file_type_count t k c) = some (extUsage t k + c) := by
  unfold update_file_type_count
  cases h : lookupA k t with
  | none =>
    rw [lookupA_append]
    simp [h, lookupA, extUsage]
  | some c0 =>
    rw [lookupA_setAssoc_self]
    simp [extUsage, h]

theorem lookupA_update_file_type_count_other (t : List (String × Nat)) (k k2 : String)
    (c : Nat) (h : k2 ≠ k) :
    lookupA k2 (update_file_type_count t k c) = lookupA k2 t := by
  unfold update_file_type_count
  cases hl : lookupA k t with
  | none =>
    rw [lookupA_append]
    cases h2 : lookupA k2 t with
    | none =>
      simp only [h2, lookupA]
      rw [if_neg (fun hh => h hh.symm)]
    | some v => simp [h2]
  | some c0 => exact lookupA_setAssoc_other _ _ h

theorem extUsage_update_file_type_count_self (t : List (String × Nat)) (k : String)
    (c : Nat) : extUsage (update_file_type_count t k c) k = extUsage t k + c := by
  unfold extUsage
  rw [lookupA_update_file_type_count_self]
  rfl

theorem extUsage_update_file_type_count_other (t : List (String × Nat)) (k k2 : String)
    (c : Nat) (h : k2 ≠ k) :
    extUsage (update_file_type_count t k c) k2 = extUsage t k2 := by
  unfold extUsage
  rw [lookupA_update_file_type_count_other _ _ _ _ h]

/-! ## Scan decomposition lemmas -/

theorem scanMessages_eq_foldl_takeWhile (fn : String) (b : Bool) (acc : ScanAcc)
    (l : List Msg) :
    scanMessages fn b acc l = (l.takeWhile isTargetMsg).foldl (scanStep fn b) acc := by
  induction l generalizing acc with
  | nil => rfl
  | cons m rest ih =>
    by_cases h : is_target_year m.timestamp
    · rw [scanMessages, if_pos h]
      have ht : isTargetMsg m = true := h
      simp only [List.takeWhile_cons, ht, List.foldl_cons]
      exact ih _
    · rw [scanMessages, if_neg h]
      have ht : isTargetMsg m = false := by simpa [isTargetMsg] using h
      simp [List.takeWhile_cons, ht]

theorem foldl_scanStep_count (fn : String) (b : Bool) (acc : ScanAcc) (l : List Msg) :
    (l.foldl (scanStep fn b) acc).count = acc.count + l.length := by
  induction l generalizing acc with
  | nil => simp
  | cons m rest ih =>
    simp only [List.foldl_cons, ih, scanStep, List.length_cons]
    omega

theorem foldl_scanStep_withAttach (fn : String) (b : Bool) (acc : ScanAcc) (l : List Msg) :
    (l.foldl (scanStep fn b) acc).withAttach = acc.withAttach + l.countP attachFlag := by
  induction l generalizing acc with
  | nil => simp
  | cons m rest ih =>
    simp only [List.foldl_cons, ih, scanStep, List.countP_cons]
    by_cases h : attachFlag m <;> simp [h] <;> omega

theorem foldl_scanStep_emoteCounts (fn : String) (b : Bool) (acc : ScanAcc) (l : List Msg) :
    (l.foldl (scanStep fn b) acc).emoteCounts = l.foldl emoteCountsStep acc.emoteCounts := by
  induction l generalizing acc with
  | nil => rfl
  | cons m rest ih => simp only [List.foldl_cons, ih, scanStep]

theorem foldl_scanStep_emoteNames (fn : String) (b : Bool) (acc : ScanAcc) (l : List Msg) :
    (l.foldl (scanStep fn b) acc).emoteNames = l.foldl emoteNamesStep acc.emoteNames := by
  induction l generalizing acc with
  | nil => rfl
  | cons m rest ih => simp only [List.foldl_cons, ih, scanStep]

theorem foldl_scanStep_fileTypeCounts (fn : String) (b : Bool) (acc : ScanAcc)
    (l : List Msg) :
    (l.foldl (scanStep fn b) acc).fileTypeCounts =
      l.foldl (fun t m => if attachFlag m then fileTypeCountsStep t m else t)
        acc.fileTypeCounts := by
  induction l generalizing acc with
  | nil => rfl
  | cons m rest ih => simp only [List.foldl_cons, ih, scanStep]

theorem foldl_scanStep_msgTable (fn : String) (b : Bool) (acc : ScanAcc) (l : List Msg) :
    (l.foldl (scanStep fn b) acc).msgTable =
      l.foldl
        (fun t m =>
          if b then insertMessageIfAbsent t m.id (msgRowOf fn m) else t) acc.msgTable := by
  induction l generalizing acc with
  | nil => rfl
  | cons m rest ih => simp only [List.foldl_cons, ih, scanStep]

/-! ## Accumulation lemmas -/

theorem nodup_keys_foldl_setAssoc {α β : Type} (es : List β) (kf : β → String)
    (vf : β → List (String × α) → α) (t : List (String × α))
    (h : (t.map Prod.fst).Nodup) :
    ((es.foldl (fun t e => setAssoc (kf e) (vf e t) t) t).map Prod.fst).Nodup := by
  induction es generalizing t with
  | nil => exact h
  | cons e rest ih => exact ih _ (nodup_keys_setAssoc _ h)

theorem isTargetMsg_iff (m : Msg) :
    isTargetMsg m = true ↔ msgYear m = some TARGET_YEAR := by
  unfold isTargetMsg is_target_year msgYear
  cases strptimeYMDHMS m.timestamp <;> simp

theorem strptime_of_isTarget (m : Msg) (h : isTargetMsg m = true) :
    ∃ dt, strptimeYMDHMS m.timestamp = some dt ∧ dt.year = TARGET_YEAR := by
  have hy := (isTargetMsg_iff m).mp h
  unfold msgYear at hy
  cases hdt : strptimeYMDHMS m.timestamp with
  | none =>
    rw [hdt] at hy
    simp at hy
  | some dt =>
    rw [hdt] at hy
    exact ⟨dt, rfl, by simpa using hy⟩

theorem isTargetMsg_false_of_parse_none (m : Msg)
    (h : strptimeYMDHMS m.timestamp = none) : isTargetMsg m = false := by
  unfold isTargetMsg is_target_year
  rw [h]

theorem isTargetMsg_false_of_year_ne (m : Msg) (dt : DateTime)
    (h : strptimeYMDHMS m.timestamp = some dt) (hne : dt.year ≠ TARGET_YEAR) :
    isTargetMsg m = false := by
  cases ht : isTargetMsg m
  · rfl
  · obtain ⟨dt2, h2, hy2⟩ := strptime_of_isTarget m ht
    rw [h] at h2
    injection h2 with h3
    rw [← h3] at hy2
    exact absurd hy2 hne

theorem lookupA_getD_foldl_bump_pairs (es : List (String × String))
    (t : List (String × Nat)) (k : String) :
    (lookupA k (es.foldl (fun t p => setAssoc p.2 ((lookupA p.2 t).getD 0 + 1) t) t)).getD 0
      = (lookupA k t).getD 0 + es.countP (fun p => p.2 = k) := by
  induction es generalizing t with
  | nil => simp
  | cons p rest ih =>
    simp only [List.foldl_cons, List.countP_cons, ih]
    by_cases h : p.2 = k
    · rw [h, lookupA_setAssoc_self]
      simp [h]
      omega
    · rw [lookupA_setAssoc_other _ _ (fun hh => h hh.symm)]
      simp [h]

theorem lookupA_getD_foldl_bump_strs (es : List String)
    (t : List (String × Nat)) (k : String) :
    (lookupA k (es.foldl (fun t e => setAssoc e ((lookupA e t).getD 0 + 1) t) t)).getD 0
      = (lookupA k t).getD 0 + es.countP (fun x => x = k) := by
  induction es generalizing t with
  | nil => simp
  | cons e rest ih =>
    simp only [List.foldl_cons, List.countP_cons, ih]
    by_cases h : e = k
    · rw [h, lookupA_setAssoc_self]
      simp [h]
      omega
    · rw [lookupA_setAssoc_other _ _ (fun hh => h hh.symm)]
      simp [h]

theorem lookupA_getD_emoteCountsStep (t : List (String × Nat)) (m : Msg) (k : String) :
    (lookupA k (emoteCountsStep t m)).getD 0
      = (lookupA k t).getD 0 + emoteOccurrencesInMsg k m := by
  unfold emoteCountsStep emoteOccurrencesInMsg
  rw [lookupA_getD_foldl_bump_pairs, List.countP_eq_length_filter]

theorem lookupA_getD_foldl_emoteCountsStep (l : List Msg) (t : List (String × Nat))
    (k : String) :
    (lookupA k (l.foldl emoteCountsStep t)).getD 0
      = (lookupA k t).getD 0 + (l.map (emoteOccurrencesInMsg k)).sum := by
  induction l generalizing t with
  | nil => simp
  | cons m rest ih =>
    simp only [List.foldl_cons, List.map_cons, List.sum_cons, ih,
      lookupA_getD_emoteCountsStep]
    omega

theorem extOccurrencesInMsg_eq_zero_of_not_attach (m : Msg) (k : String)
    (h : ¬attachFlag m) : extOccurrencesInMsg k m = 0 := by
  unfold attachFlag at h
  unfold extOccurrencesInMsg
  simp at h
  simp [h]

theorem lookupA_getD_fileTypeCountsStep (t : List (String × Nat)) (m : Msg) (k : String) :
    (lookupA k (fileTypeCountsStep t m)).getD 0
      = (lookupA k t).getD 0 + extOccurrencesInMsg k m := by
  unfold fileTypeCountsStep extOccurrencesInMsg
  rw [lookupA_getD_foldl_bump_strs, List.countP_eq_length_filter]

theorem lookupA_getD_foldl_fileTypeCountsStep (l : List Msg) (t : List (String × Nat))
    (k : String) :
    (lookupA k
        (l.foldl (fun t m => if attachFlag m then fileTypeCountsStep t m else t) t)).getD 0
      = (lookupA k t).getD 0 + (l.map (extOccurrencesInMsg k)).sum := by
  induction l generalizing t with
  | nil => simp
  | cons m rest ih =>
    simp only [List.foldl_cons, List.map_cons, List.sum_cons, ih]
    by_cases h : attachFlag m
    · rw [if_pos h, lookupA_getD_fileTypeCountsStep]
      omega
    · rw [if_neg h, extOccurrencesInMsg_eq_zero_of_not_attach m k h]
      omega

/-! ## Flush lemmas -/

theorem emoteUsage_flush_not_mem (L : List (String × Nat))
    (names : List (String × String)) (t : List (String × EmoteRow)) (k : String)
    (h : k ∉ L.map Prod.fst) :
    emoteUsage
        (L.foldl (fun tb p => update_emote_count tb ((lookupA p.1 names).getD "") p.1 p.2) t)
        k = emoteUsage t k := by
  induction L generalizing t with
  | nil => rfl
  | cons p rest ih =>
    simp only [List.map_cons, List.mem_cons] at h
    push_neg at h
    simp only [List.foldl_cons]
    rw [ih _ h.2, emoteUsage_update_emote_count_other _ _ _ _ _ h.1]

theorem emoteUsage_flush (L : List (String × Nat)) (names : List (String × String))
    (t : List (String × EmoteRow)) (k : String) (hnd : (L.map Prod.fst).Nodup) :
    emoteUsage
        (L.foldl (fun tb p => update_emote_count tb ((lookupA p.1 names).getD "") p.1 p.2) t)
        k = emoteUsage t k + (lookupA k L).getD 0 := by
  induction L generalizing t with
  | nil => simp [lookupA]
  | cons p rest ih =>
    obtain ⟨k1, c1⟩ := p
    simp only [List.map_cons, List.nodup_cons] at hnd
    simp only [List.foldl_cons, lookupA]
    by_cases h : k1 = k
    · subst h
      rw [if_pos rfl, emoteUsage_flush_not_mem _ _ _ _ hnd.1,
        emoteUsage_update_emote_count_self]
      simp
    · rw [if_neg h, ih _ hnd.2, emoteUsage_update_emote_count_other _ _ _ _ _
        (fun hh => h hh.symm)]

theorem extUsage_flush_not_mem (L : List (String × Nat)) (t : List (String × Nat))
    (k : String) (h : k ∉ L.map Prod.fst) :
    extUsage (L.foldl (fun tb p => update_file_type_count tb p.1 p.2) t) k
      = extUsage t k := by
  induction L generalizing t with
  | nil => rfl
  | cons p rest ih =>
    simp only [List.map_cons, List.mem_cons] at h
    push_neg at h
    simp only [List.foldl_cons]
    rw [ih _ h.2, extUsage_update_file_type_count_other _ _ _ _ h.1]

theorem extUsage_flush (L : List (String × Nat)) (t : List (String × Nat)) (k : String)
    (hnd : (L.map Prod.fst).Nodup) :
    extUsage (L.foldl (fun tb p => update_file_type_count tb p.1 p.2) t) k
      = extUsage t k + (lookupA k L).getD 0 := by
  induction L generalizing t with
  | nil => simp [lookupA]
  | cons p rest ih =>
    obtain ⟨k1, c1⟩ := p
    simp only [List.map_cons, List.nodup_cons] at hnd
    simp only [List.foldl_cons, lookupA]
    by_cases h : k1 = k
    · subst h
      rw [if_pos rfl, extUsage_flush_not_mem _ _ _ hnd.1,
        extUsage_update_file_type_count_self]
      simp
    · rw [if_neg h, ih _ hnd.2, extUsage_update_file_type_count_other _ _ _ _
        (fun hh => h hh.symm)]

/-! ## Conversation-processor lemmas -/

/-- The channels row _mark_processed writes. -/
def channelRowOf (cd : ChannelData) (count attachments_count : Nat) : ChannelRow :=
  if cd.ctype.getD "UNKNOWN" = "DM" ∨ cd.ctype.getD "UNKNOWN" = "GROUP_DM" then
    ⟨cd.cid.getD "", cd.ctype.getD "UNKNOWN", cd.cname.getD "", none, none,
      some (sortStrings cd.recipients), count, attachments_count, true⟩
  else
    ⟨cd.cid.getD "", cd.ctype.getD "UNKNOWN", cd.cname.getD "", cd.guildId, cd.guildName,
      none, count, attachments_count, true⟩

theorem mark_processed_eq_setAssoc (ch : List (String × ChannelRow)) (fn : String)
    (cd : ChannelData) (c a : Nat) :
    mark_processed ch fn cd c a = setAssoc fn (channelRowOf cd c a) ch := by
  by_cases h : cd.ctype.getD "UNKNOWN" = "DM" ∨ cd.ctype.getD "UNKNOWN" = "GROUP_DM" <;>
    simp only [mark_processed, channelRowOf, h, if_true, if_false, reduceIte]

theorem mark_processed_lookup_other (ch : List (String × ChannelRow)) {fn g : String}
    (cd : ChannelData) (c a : Nat) (hg : g ≠ fn) :
    lookupA g (mark_processed ch fn cd c a) = lookupA g ch := by
  rw [mark_processed_eq_setAssoc]
  exact lookupA_setAssoc_other _ _ hg

theorem mark_processed_lookup_self (ch : List (String × ChannelRow)) (fn : String)
    (cd : ChannelData) (c a : Nat) :
    lookupA fn (mark_processed ch fn cd c a) = some (channelRowOf cd c a) := by
  rw [mark_processed_eq_setAssoc]
  exact lookupA_setAssoc_self _ _ _

theorem process_folder_of_completed (s : AState) (idx : List (String × String))
    (f : Folder) (b : Bool) (h : is_conversation_completed s.db f.folderName = true) :
    process_folder s idx f b = s := by
  unfold process_folder
  rw [h]
  simp

/-- Scan-accumulator characterizations. -/
theorem scanAcc_count (fn : String) (b : Bool) (mt : List (String × MessageRow))
    (l : List Msg) :
    (scanMessages fn b ⟨0, 0, [], [], [], mt⟩ l).count = (l.takeWhile isTargetMsg).length := by
  rw [scanMessages_eq_foldl_takeWhile, foldl_scanStep_count]
  simp

theorem scanAcc_withAttach (fn : String) (b : Bool) (mt : List (String × MessageRow))
    (l : List Msg) :
    (scanMessages fn b ⟨0, 0, [], [], [], mt⟩ l).withAttach
      = (l.takeWhile isTargetMsg).countP attachFlag := by
  rw [scanMessages_eq_foldl_takeWhile, foldl_scanStep_withAttach]
  simp

theorem scanAcc_emoteCounts (fn : String) (b : Bool) (mt : List (String × MessageRow))
    (l : List Msg) :
    (scanMessages fn b ⟨0, 0, [], [], [], mt⟩ l).emoteCounts
      = (l.takeWhile isTargetMsg).foldl emoteCountsStep [] := by
  rw [scanMessages_eq_foldl_takeWhile, foldl_scanStep_emoteCounts]

theorem scanAcc_emoteNames (fn : String) (b : Bool) (mt : List (String × MessageRow))
    (l : List Msg) :
    (scanMessages fn b ⟨0, 0, [], [], [], mt⟩ l).emoteNames
      = (l.takeWhile isTargetMsg).foldl emoteNamesStep [] := by
  rw [scanMessages_eq_foldl_takeWhile, foldl_scanStep_emoteNames]

theorem scanAcc_fileTypeCounts (fn : String) (b : Bool) (mt : List (String × MessageRow))
    (l : List Msg) :
    (scanMessages fn b ⟨0, 0, [], [], [], mt⟩ l).fileTypeCounts
      = (l.takeWhile isTargetMsg).foldl
          (fun t m => if attachFlag m then fileTypeCountsStep t m else t) [] := by
  rw [scanMessages_eq_foldl_takeWhile, foldl_scanStep_fileTypeCounts]

theorem scanAcc_msgTable (fn : String) (b : Bool) (mt : List (String × MessageRow))
    (l : List Msg) :
    (scanMessages fn b ⟨0, 0, [], [], [], mt⟩ l).msgTable
      = (l.takeWhile isTargetMsg).foldl
          (fun t m => if b then insertMessageIfAbsent t m.id (msgRowOf fn m) else t) mt := by
  rw [scanMessages_eq_foldl_takeWhile, foldl_scanStep_msgTable]

theorem nodup_keys_emoteCountsStep (t : List (String × Nat)) (m : Msg)
    (h : (t.map Prod.fst).Nodup) : ((emoteCountsStep t m).map Prod.fst).Nodup :=
  nodup_keys_foldl_setAssoc (extract_emotes m.contents) (fun p => p.2)
    (fun p t => (lookupA p.2 t).getD 0 + 1) t h

theorem nodup_keys_foldl_emoteCountsStep (l : List Msg) (t : List (String × Nat))
    (h : (t.map Prod.fst).Nodup) :
    ((l.foldl emoteCountsStep t).map Prod.fst).Nodup := by
  induction l generalizing t with
  | nil => exact h
  | cons m rest ih => exact ih _ (nodup_keys_emoteCountsStep _ _ h)

theorem nodup_keys_fileTypeCountsStep (t : List (String × Nat)) (m : Msg)
    (h : (t.map Prod.fst).Nodup) : ((fileTypeCountsStep t m).map Prod.fst).Nodup :=
  nodup_keys_foldl_setAssoc (extract_file_types m.attachments) (fun e => e)
    (fun e t => (lookupA e t).getD 0 + 1) t h

theorem nodup_keys_foldl_fileTypeCountsStep (l : List Msg) (t : List (String × Nat))
    (h : (t.map Prod.fst).Nodup) :
    ((l.foldl (fun t m => if attachFlag m then fileTypeCountsStep t m else t) t).map
        Prod.fst).Nodup := by
  induction l generalizing t with
  | nil => exact h
  | cons m rest ih =>
    simp only [List.foldl_cons]
    refine ih _ ?_
    by_cases hm : attachFlag m
    · simp only [hm, if_true]
      exact nodup_keys_fileTypeCountsStep _ _ h
    · simp only [hm, Bool.false_eq_true, if_false]
      exact h

theorem process_folder_channels_other (s : AState) (idx : List (String × String))
    (f : Folder) (b : Bool) {g : String} (hg : g ≠ f.folderName) :
    lookupA g (process_folder s idx f b).db.channels = lookupA g s.db.channels := by
  by_cases h1 : is_conversation_completed s.db f.folderName
  · rw [process_folder_of_completed _ _ _ _ h1]
  · rw [Bool.not_eq_true] at h1
    unfold process_folder
    rw [h1]
    simp only [Bool.false_eq_true, if_false]
    by_cases h2 : f.hasChannelFile = false ∨ f.hasMessagesFile = false
    · rw [if_pos h2]
    · rw [if_neg h2]
      cases hmsgs : f.messages with
      | nil => exact mark_processed_lookup_other _ _ _ _ hg
      | cons first rest =>
        dsimp only
        cases hdt : strptimeYMDHMS first.timestamp with
        | none => rfl
        | some dt =>
          dsimp only
          by_cases h3 : dt.year < TARGET_YEAR
          · rw [if_pos h3]
            exact mark_processed_lookup_other _ _ _ _ hg
          · rw [if_neg h3]
            by_cases h4 :
                (scanMessages f.folderName b ⟨0, 0, [], [], [], s.db.messages⟩
                  (first :: rest)).count = 0
            · rw [if_pos h4]
              exact mark_processed_lookup_other _ _ _ _ hg
            · rw [if_neg h4]
              exact mark_processed_lookup_other _ _ _ _ hg

theorem process_folder_emoteUsage (s : AState) (idx : List (String × String)) (f : Folder)
    (b : Bool) (eid : String)
    (hfresh : is_conversation_completed s.db f.folderName = false)
    (hcf : f.hasChannelFile = true) (hmf : f.hasMessagesFile = true) :
    emoteUsage (process_folder s idx f b).db.emotes eid
      = emoteUsage s.db.emotes eid + emoteOccurrencesScanned eid f := by
  unfold process_folder
  rw [hfresh]
  simp only [Bool.false_eq_true, if_false]
  have h2 : ¬(f.hasChannelFile = false ∨ f.hasMessagesFile = false) := by
    rw [hcf, hmf]
    simp
  rw [if_neg h2]
  unfold emoteOccurrencesScanned scannedMessages
  cases hmsgs : f.messages with
  | nil => simp
  | cons first rest =>
    dsimp only
    cases hdt : strptimeYMDHMS first.timestamp with
    | none =>
      have hft : isTargetMsg first = false := isTargetMsg_false_of_parse_none first hdt
      rw [List.takeWhile_cons, hft]
      simp
    | some dt =>
      dsimp only
      by_cases h3 : dt.year < TARGET_YEAR
      · rw [if_pos h3]
        have hft : isTargetMsg first = false :=
          isTargetMsg_false_of_year_ne first dt hdt (by omega)
        rw [List.takeWhile_cons, hft]
        simp
      · rw [if_neg h3]
        by_cases h4 :
            (scanMessages f.folderName b ⟨0, 0, [], [], [], s.db.messages⟩
              (first :: rest)).count = 0
        · rw [if_pos h4]
          rw [scanAcc_count] at h4
          rw [List.eq_nil_of_length_eq_zero h4]
          simp
        · rw [if_neg h4]
          rw [scanAcc_emoteCounts, scanAcc_emoteNames]
          rw [emoteUsage_flush _ _ _ _
            (nodup_keys_foldl_emoteCountsStep _ _ (by simp))]
          rw [lookupA_getD_foldl_emoteCountsStep]
          simp [lookupA]

theorem process_folder_extUsage (s : AState) (idx : List (String × String)) (f : Folder)
    (b : Bool) (e : String)
    (hfresh : is_conversation_completed s.db f.folderName = false)
    (hcf : f.hasChannelFile = true) (hmf : f.hasMessagesFile = true) :
    extUsage (process_folder s idx f b).db.fileTypes e
      = extUsage s.db.fileTypes e + extOccurrencesScanned e f := by
  unfold process_folder
  rw [hfresh]
  simp only [Bool.false_eq_true, if_false]
  have h2 : ¬(f.hasChannelFile = false ∨ f.hasMessagesFile = false) := by
    rw [hcf, hmf]
    simp
  rw [if_neg h2]
  unfold extOccurrencesScanned scannedMessages
  cases hmsgs : f.messages with
  | nil => simp
  | cons first rest =>
    dsimp only
    cases hdt : strptimeYMDHMS first.timestamp with
    | none =>
      have hft : isTargetMsg first = false := isTargetMsg_false_of_parse_none first hdt
      rw [List.takeWhile_cons, hft]
      simp
    | some dt =>
      dsimp only
      by_cases h3 : dt.year < TARGET_YEAR
      · rw [if_pos h3]
        have hft : isTargetMsg first = false :=
          isTargetMsg_false_of_year_ne first dt hdt (by omega)
        rw [List.takeWhile_cons, hft]
        simp
      · rw [if_neg h3]
        by_cases h4 :
            (scanMessages f.folderName b ⟨0, 0, [], [], [], s.db.messages⟩
              (first :: rest)).count = 0
        · rw [if_pos h4]
          rw [scanAcc_count] at h4
          rw [List.eq_nil_of_length_eq_zero h4]
          simp
        · rw [if_neg h4]
          rw [scanAcc_fileTypeCounts]
          rw [extUsage_flush _ _ _
            (nodup_keys_foldl_fileTypeCountsStep _ _ (by simp))]
          rw [lookupA_getD_foldl_fileTypeCountsStep]
          simp [lookupA]

/-! ## Driver-level lemmas -/

theorem runPass_of_all_completed (s : AState) (idx : List (String × String))
    (folders : List Folder) (b : Bool)
    (h : ∀ f ∈ folders, is_conversation_completed s.db f.folderName = true) :
    runPass s idx folders b = s := by
  induction folders with
  | nil => rfl
  | cons f rest ih =>
    unfold runPass
    simp only [List.foldl_cons]
    rw [process_folder_of_completed _ _ _ _ (h f (List.mem_cons_self _ _))]
    exact ih (fun g hg => h g (List.mem_cons_of_mem _ hg))

theorem runPass_emoteUsage :
    ∀ (folders : List Folder) (s : AState) (idx : List (String × String)) (b : Bool)
      (eid : String),
      (folders.map Folder.folderName).Nodup →
      (∀ f ∈ folders, is_conversation_completed s.db f.folderName = false) →
      (∀ f ∈ folders, f.hasChannelFile = true ∧ f.hasMessagesFile = true) →
      emoteUsage (runPass s idx folders b).db.emotes eid
        = emoteUsage s.db.emotes eid + (folders.map (emoteOccurrencesScanned eid)).sum := by
  intro folders
  induction folders with
  | nil =>
    intro s idx b eid _ _ _
    simp [runPass]
  | cons f rest ih =>
    intro s idx b eid hnd hfresh hfiles
    simp only [List.map_cons, List.nodup_cons] at hnd
    have hstep := process_folder_emoteUsage s idx f b eid
      (hfresh f (List.mem_cons_self _ _)) (hfiles f (List.mem_cons_self _ _)).1
      (hfiles f (List.mem_cons_self _ _)).2
    have hfresh2 : ∀ g ∈ rest,
        is_conversation_completed (process_folder s idx f b).db g.folderName = false := by
      intro g hg
      have hne : g.folderName ≠ f.folderName := by
        intro he
        exact hnd.1 (he ▸ List.mem_map_of_mem Folder.folderName hg)
      unfold is_conversation_completed
      rw [process_folder_channels_other s idx f b hne]
      exact hfresh g (List.mem_cons_of_mem _ hg)
    have hrec := ih (process_folder s idx f b) idx b eid hnd.2 hfresh2
      (fun g hg => hfiles g (List.mem_cons_of_mem _ hg))
    simp only [runPass, List.foldl_cons] at hrec ⊢
    rw [hrec, hstep, List.map_cons, List.sum_cons]
    omega

theorem runPass_extUsage :
    ∀ (folders : List Folder) (s : AState) (idx : List (String × String)) (b : Bool)
      (e : String),
      (folders.map Folder.folderName).Nodup →
      (∀ f ∈ folders, is_conversation_completed s.db f.folderName = false) →
      (∀ f ∈ folders, f.hasChannelFile = true ∧ f.hasMessagesFile = true) →
      extUsage (runPass s idx folders b).db.fileTypes e
        = extUsage s.db.fileTypes e + (folders.map (extOccurrencesScanned e)).sum := by
  intro folders
  induction folders with
  | nil =>
    intro s idx b e _ _ _
    simp [runPass]
  | cons f rest ih =>
    intro s idx b e hnd hfresh hfiles
    simp only [List.map_cons, List.nodup_cons] at hnd
    have hstep := process_folder_extUsage s idx f b e
      (hfresh f (List.mem_cons_self _ _)) (hfiles f (List.mem_cons_self _ _)).1
      (hfiles f (List.mem_cons_self _ _)).2
    have hfresh2 : ∀ g ∈ rest,
        is_conversation_completed (process_folder s idx f b).db g.folderName = false := by
      intro g hg
      have hne : g.folderName ≠ f.folderName := by
        intro he
        exact hnd.1 (he ▸ List.mem_map_of_mem Folder.folderName hg)
      unfold is_conversation_completed
      rw [process_folder_channels_other s idx f b hne]
      exact hfresh g (List.mem_cons_of_mem _ hg)
    have hrec := ih (process_folder s idx f b) idx b e hnd.2 hfresh2
      (fun g hg => hfiles g (List.mem_cons_of_mem _ hg))
    simp only [runPass, List.foldl_cons] at hrec ⊢
    rw [hrec, hstep, List.map_cons, List.sum_cons]
    omega

/-! ## Message-table lemmas -/

theorem lookupA_insertMessageIfAbsent_of_some (t : List (String × MessageRow))
    (mid k : String) (row r : MessageRow) (h : lookupA k t = some r) :
    lookupA k (insertMessageIfAbsent t mid row) = some r := by
  unfold insertMessageIfAbsent
  cases hm : lookupA mid t with
  | none =>
    rw [lookupA_append, h]
  | some v => exact h

theorem lookupA_insertMessageIfAbsent_cases (t : List (String × MessageRow))
    (mid k : String) (row r : MessageRow)
    (h : lookupA k (insertMessageIfAbsent t mid row) = some r) :
    lookupA k t = some r ∨ r = row := by
  unfold insertMessageIfAbsent at h
  cases hm : lookupA mid t with
  | none =>
    rw [hm, lookupA_append] at h
    cases hk : lookupA k t with
    | some v =>
      rw [hk] at h
      exact Or.inl h
    | none =>
      rw [hk] at h
      simp only [lookupA] at h
      by_cases he : mid = k
      · rw [if_pos he] at h
        exact Or.inr (by injection h with h2; exact h2.symm)
      · rw [if_neg he] at h
        exact absurd h (by simp [lookupA])
  | some v =>
    rw [hm] at h
    exact Or.inl h

theorem msgRowOf_year_of_target (fn : String) (m : Msg) (h : isTargetMsg m = true) :
    (msgRowOf fn m).year = some TARGET_YEAR := by
  have hy := (isTargetMsg_iff m).mp h
  unfold msgRowOf parse_timestamp
  unfold msgYear at hy
  cases hdt : strptimeYMDHMS m.timestamp with
  | none => rw [hdt] at hy; simp at hy
  | some dt =>
    rw [hdt] at hy
    have hye : dt.year = TARGET_YEAR := by
      simpa using hy
    simp [hye]

theorem foldl_msgTable_of_some (b : Bool) (fn : String) (l : List Msg)
    (t : List (String × MessageRow)) (k : String) (r : MessageRow)
    (h : lookupA k t = some r) :
    lookupA k
        (l.foldl (fun t m => if b then insertMessageIfAbsent t m.id (msgRowOf fn m) else t) t)
      = some r := by
  induction l generalizing t with
  | nil => exact h
  | cons m rest ih =>
    simp only [List.foldl_cons]
    refine ih _ ?_
    by_cases hb : b
    · rw [if_pos hb]
      exact lookupA_insertMessageIfAbsent_of_some _ _ _ _ _ h
    · rwa [if_neg hb]

theorem foldl_msgTable_new_cases (b : Bool) (fn : String) (l : List Msg)
    (t : List (String × MessageRow)) (k : String) (r : MessageRow)
    (h : lookupA k
        (l.foldl (fun t m => if b then insertMessageIfAbsent t m.id (msgRowOf fn m) else t) t)
      = some r) :
    lookupA k t = some r ∨ ∃ m ∈ l, r = msgRowOf fn m := by
  induction l generalizing t with
  | nil => exact Or.inl h
  | cons m rest ih =>
    simp only [List.foldl_cons] at h
    rcases ih _ h with h2 | h2
    · by_cases hb : b
      · rw [if_pos hb] at h2
        rcases lookupA_insertMessageIfAbsent_cases _ _ _ _ _ h2 with h3 | h3
        · exact Or.inl h3
        · exact Or.inr ⟨m, List.mem_cons_self _ _, h3⟩
      · rw [if_neg hb] at h2
        exact Or.inl h2
    · obtain ⟨m2, hm2, he⟩ := h2
      exact Or.inr ⟨m2, List.mem_cons_of_mem _ hm2, he⟩

theorem foldl_msgTable_false (fn : String) (l : List Msg)
    (t : List (String × MessageRow)) :
    l.foldl (fun t m => if (false : Bool) then insertMessageIfAbsent t m.id (msgRowOf fn m)
      else t) t = t := by
  induction l generalizing t with
  | nil => rfl
  | cons m rest ih =>
    simp only [List.foldl_cons, Bool.false_eq_true, if_false]
    exact ih _

/-! ## Concrete fixtures for witnesses and counterexamples -/

/-- Empty initial analyzer state: fresh database, zero run counters. -/
def initialState : AState := ⟨⟨[], [], [], [], []⟩, 0, 0, 0⟩

/-- Label index for the one-to-one identity-resolution scenario. -/
def dmIndex : List (String × String) := [("C42", "Direct Message with Alice#0")]

/-- Descriptor of a one-to-one conversation with participants U1, U2. -/
def dmChannelData : ChannelData := ⟨some "DM", some "C42", none, ["U1", "U2"], none, none⟩

/-- One-to-one conversation folder with exactly one target-year message. -/
def dmFolder : Folder :=
  ⟨"c42", true, true, dmChannelData, [⟨"2025-03-01 10:00:00", "hello", "", "m1"⟩]⟩

/-! ## Claim C9 -/

/-- C9: Counter Store increment semantics.  increment_emote
(update_emote_count) inserts a new entry with count equal to the delta
when the identity is absent, and otherwise adds the delta to the
existing count and overwrites the stored display name with the
latest-seen value; increment_extension (update_file_type_count) behaves
identically on extension keys (insert-or-accumulate) with no name
field. -/
theorem claim_counter_store_increment (emotes : List (String × EmoteRow))
    (fileTypes : List (String × Nat)) (nm eid ext : String) (c d : Nat) :
    (lookupA eid emotes = none →
      lookupA eid (update_emote_count emotes nm eid c) = some ⟨nm, c⟩) ∧
    (∀ r, lookupA eid emotes = some r →
      lookupA eid (update_emote_count emotes nm eid c) = some ⟨nm, r.usageCount + c⟩) ∧
    (lookupA ext fileTypes = none →
      lookupA ext (update_file_type_count fileTypes ext d) = some d) ∧
    (∀ n, lookupA ext fileTypes = some n →
      lookupA ext (update_file_type_count fileTypes ext d) = some (n + d)) := by
  refine ⟨fun h => ?_, fun r h => ?_, fun h => ?_, fun n h => ?_⟩
  · rw [lookupA_update_emote_count_self]
    simp [emoteUsage, h]
  · rw [lookupA_update_emote_count_self]
    simp [emoteUsage, h]
  · rw [lookupA_update_file_type_count_self]
    simp [extUsage, h]
  · rw [lookupA_update_file_type_count_self]
    simp [extUsage, h]

/-- Witness for C9 at concrete inputs: a fresh emote insert, an
accumulating emote update with name overwrite, a fresh extension insert
and an accumulating extension update. -/
theorem claim_counter_store_increment_witness :
    lookupA "9" (update_emote_count [("7", ⟨"x", 1⟩)] "wave" "9" 2) = some ⟨"wave", 2⟩ ∧
    lookupA "9" (update_emote_count [("9", ⟨"old", 3⟩)] "new" "9" 2) = some ⟨"new", 5⟩ ∧
    lookupA "png" (update_file_type_count [] "png" 4) = some 4 ∧
    lookupA "png" (update_file_type_count [("png", 1)] "png" 4) = some 5 := by
  refine ⟨?_, ?_, ?_, ?_⟩
  · exact (claim_counter_store_increment [("7", ⟨"x", 1⟩)] [] "wave" "9" "png" 2 4).1
      (by decide)
  · exact (claim_counter_store_increment [("9", ⟨"old", 3⟩)] [] "new" "9" "png" 2 4).2.1
      ⟨"old", 3⟩ (by decide)
  · exact (claim_counter_store_increment [] [] "wave" "9" "png" 2 4).2.2.1 (by decide)
  · exact (claim_counter_store_increment [] [("png", 1)] "wave" "9" "png" 2 4).2.2.2 1
      (by decide)

/-! ## Claim C8 -/

/-- Modelled from the claim's words: all dot-delimited alphanumeric runs
of a segment that immediately precede a question mark or the end of the
segment (the candidate extension runs), in positional order. -/
def qualifyingRuns : List Char → List String
  | [] => []
  | c :: rest =>
    if extMatchAt c rest then
      String.mk (rest.takeWhile Char.isAlphanum) :: qualifyingRuns rest
    else qualifyingRuns rest

/-- Modelled from the claim's words: the attachment-extension extractor
as the claim describes it, taking the FINAL qualifying run of each
segment, lower-cased (the code's extractor takes the first). -/
def extract_file_types_finalSpec (attachments : String) : List String :=
  if attachments = "" then []
  else
    ((splitCN attachments.data).map pyStrip).filterMap fun url =>
      if url = [] then none
      else ((qualifyingRuns url).getLast?).map lowerString

theorem fileExtSearch_eq_head_qualifyingRuns (cs : List Char) :
    fileExtSearch cs = (qualifyingRuns cs).head? := by
  induction cs with
  | nil => rfl
  | cons c rest ih =>
    unfold fileExtSearch qualifyingRuns
    by_cases h : extMatchAt c rest
    · rw [if_pos h, if_pos h]
      rfl
    · rw [if_neg h, if_neg h, ih]

/-- C8 counterexample: in the single segment a.png?b.jpg both png
(preceding a query-string marker) and jpg (preceding end-of-string) are
dot-delimited alphanumeric runs; the final one is jpg, yet the extractor
yields png, because re.search returns the first matching position. -/
theorem claim_extension_extraction_counterexample :
    extract_file_types "a.png?b.jpg" = ["png"] ∧
    extract_file_types_finalSpec "a.png?b.jpg" = ["jpg"] ∧
    qualifyingRuns "a.png?b.jpg".data = ["png", "jpg"] := by
  refine ⟨by decide, by decide, by decide⟩

/-- C8 amended: the extractor splits on comma and newline, trims
whitespace, discards empty segments, and for each remaining segment
yields the FIRST dot-delimited alphanumeric run preceding a query-string
marker or end-of-string, lower-cased; a segment with no such run
contributes nothing, empty input yields the empty sequence, and the
claim's example input yields png then jpg. -/
theorem claim_extension_extraction_amended (attachments : String) :
    extract_file_types attachments =
      (if attachments = "" then []
       else ((splitCN attachments.data).map pyStrip).filterMap fun url =>
         if url = [] then none
         else ((qualifyingRuns url).head?).map lowerString) ∧
    extract_file_types "http://x/a.PNG?x=1,http://y/b.jpg" = ["png", "jpg"] ∧
    extract_file_types "" = [] ∧
    extract_file_types "http://x/nodot" = [] := by
  refine ⟨?_, by decide, by decide, by decide⟩
  unfold extract_file_types
  by_cases h : attachments = ""
  · rw [if_pos h, if_pos h]
  · rw [if_neg h, if_neg h]
    congr 1
    funext url
    rw [fileExtSearch_eq_head_qualifyingRuns]

/-! ## Claim C4 -/

/-- C4 (code bug): the label Direct Message with Alice#0 is stripped to
Alice, and the spec-modelled identity resolution attributes it to the
participant U2 that is not the configured self identity U1; but running
the v4 conversation processor over the one-to-one conversation stores no
user mapping at all, because the mapping block of ExtractData_v4.py
reads the global name USER_ID, which is not defined in that file, and
the resulting NameError is swallowed by the enclosing exception handler.
The conversation is nevertheless marked completed. -/
theorem claim_identity_resolution_code_bug :
    extract_username_from_dm_label "Direct Message with Alice#0" = some "Alice" ∧
    dm_mapping_intended "U1" dmIndex dmChannelData [] = [("U2", "Alice")] ∧
    (process_folder initialState dmIndex dmFolder false).db.users = [] ∧
    is_conversation_completed (process_folder initialState dmIndex dmFolder false).db
      "c42" = true := by
  refine ⟨by decide, by decide, by decide, by decide⟩

/-! ## Claim C1 -/

/-- C1: Idempotent resumability.  For every conversation whose
completion flag is already set in the Counter Store, invoking the
conversation processor on it returns the state unchanged (no counter
increments, no row writes); consequently a full aggregation pass over a
list of already-completed conversations leaves the whole store (every
emote usage count, extension count and conversation row) exactly as it
was. -/
theorem claim_idempotent_resumability (s : AState) (idx : List (String × String))
    (folders : List Folder) (b : Bool)
    (h : ∀ f ∈ folders, is_conversation_completed s.db f.folderName = true) :
    (∀ f ∈ folders, process_folder s idx f b = s) ∧ runPass s idx folders b = s :=
  ⟨fun f hf => process_folder_of_completed s idx f b (h f hf),
   runPass_of_all_completed s idx folders b h⟩

/-- Witness for C1: after processing the one-to-one fixture conversation
once, a second full pass over it leaves the state untouched. -/
theorem claim_idempotent_resumability_witness :
    runPass (process_folder initialState dmIndex dmFolder false) dmIndex [dmFolder] false
      = process_folder initialState dmIndex dmFolder false :=
  (claim_idempotent_resumability (process_folder initialState dmIndex dmFolder false)
    dmIndex [dmFolder] false (by decide)).2

/-! ## Claim C6 -/

/-- C6: Stale-conversation early exit.  A fresh conversation with both
files present whose newest (first) message has a parseable timestamp
with year strictly below the target year is marked completed with
message count zero and attachment count zero; the result does not depend
on any message beyond the newest one, and the emote, extension, user and
message tables are unchanged. -/
theorem claim_stale_early_exit (s : AState) (idx : List (String × String)) (f : Folder)
    (b : Bool) (m0 : Msg) (tail : List Msg) (dt : DateTime)
    (hfresh : is_conversation_completed s.db f.folderName = false)
    (hcf : f.hasChannelFile = true) (hmf : f.hasMessagesFile = true)
    (hmsgs : f.messages = m0 :: tail)
    (hdt : strptimeYMDHMS m0.timestamp = some dt) (hy : dt.year < TARGET_YEAR) :
    process_folder s idx f b =
      { s with
        skippedCount := s.skippedCount + 1
        db := { s.db with
          channels := setAssoc f.folderName (channelRowOf f.channelData 0 0)
            s.db.channels } } ∧
    (∀ tail2, process_folder s idx { f with messages := m0 :: tail2 } b
      = process_folder s idx f b) ∧
    lookupA f.folderName (process_folder s idx f b).db.channels
      = some (channelRowOf f.channelData 0 0) ∧
    (channelRowOf f.channelData 0 0).messageCount = 0 ∧
    (channelRowOf f.channelData 0 0).messagesWithAttachments = 0 ∧
    (channelRowOf f.channelData 0 0).processed = true ∧
    (process_folder s idx f b).db.emotes = s.db.emotes ∧
    (process_folder s idx f b).db.fileTypes = s.db.fileTypes ∧
    (process_folder s idx f b).db.users = s.db.users ∧
    (process_folder s idx f b).db.messages = s.db.messages := by
  have h2 : ¬(f.hasChannelFile = false ∨ f.hasMessagesFile = false) := by
    rw [hcf, hmf]
    simp
  have hmain : process_folder s idx f b =
      { s with
        skippedCount := s.skippedCount + 1
        db := { s.db with
          channels := setAssoc f.folderName (channelRowOf f.channelData 0 0)
            s.db.channels } } := by
    unfold process_folder
    rw [hfresh]
    simp only [Bool.false_eq_true, if_false]
    rw [if_neg h2, hmsgs]
    dsimp only
    rw [hdt]
    dsimp only
    rw [if_pos hy, mark_processed_eq_setAssoc]
  have htail : ∀ tail2, process_folder s idx { f with messages := m0 :: tail2 } b =
      { s with
        skippedCount := s.skippedCount + 1
        db := { s.db with
          channels := setAssoc f.folderName (channelRowOf f.channelData 0 0)
            s.db.channels } } := by
    intro tail2
    unfold process_folder
    rw [hfresh]
    simp only [Bool.false_eq_true, if_false]
    rw [if_neg h2]
    rw [hdt]
    dsimp only
    rw [if_pos hy, mark_processed_eq_setAssoc]
  refine ⟨hmain, fun tail2 => (htail tail2).trans hmain.symm, ?_, ?_, ?_, ?_, ?_, ?_, ?_, ?_⟩
  · rw [hmain]
    exact lookupA_setAssoc_self _ _ _
  · unfold channelRowOf
    split <;> rfl
  · unfold channelRowOf
    split <;> rfl
  · unfold channelRowOf
    split <;> rfl
  · rw [hmain]
  · rw [hmain]
  · rw [hmain]
  · rw [hmain]

/-- Stale conversation fixture: the newest message is from the year
before the target year, the second message is poisoned (an invalid
timestamp and an emote token) and would change the outcome if it were
scanned. -/
def staleFolder : Folder :=
  ⟨"c6", true, true, dmChannelData,
    [⟨"2024-12-31 23:59:59", "x", "", "s1"⟩, ⟨"garbage", "<:poison:1>", "bad.png", "s2"⟩]⟩

/-- Witness for C6 on the stale fixture. -/
theorem claim_stale_early_exit_witness :
    process_folder initialState [] staleFolder false =
      { initialState with
        skippedCount := 1
        db := { initialState.db with
          channels := [("c6", channelRowOf dmChannelData 0 0)] } } :=
  (claim_stale_early_exit initialState [] staleFolder false
    ⟨"2024-12-31 23:59:59", "x", "", "s1"⟩
    [⟨"garbage", "<:poison:1>", "bad.png", "s2"⟩]
    ⟨2024, 12, 31, 23, 59, 59⟩ (by decide) rfl rfl rfl (by decide) (by decide)).1

/-! ## Claim C7 -/

/-- C7: Malformed-input handling.  For a fresh conversation folder that
is missing its descriptor file or its message file, and for a fresh
conversation whose newest message's timestamp fails to parse during the
gating check, the error tally is incremented and nothing else changes:
the database is untouched, so the completion flag remains unset and a
future run retries the conversation. -/
theorem claim_malformed_input_handling (s : AState) (idx : List (String × String))
    (f : Folder) (b : Bool)
    (hfresh : is_conversation_completed s.db f.folderName = false)
    (hbad : (f.hasChannelFile = false ∨ f.hasMessagesFile = false) ∨
      (f.hasChannelFile = true ∧ f.hasMessagesFile = true ∧
        ∃ m0 tail, f.messages = m0 :: tail ∧ strptimeYMDHMS m0.timestamp = none)) :
    process_folder s idx f b = { s with errorCount := s.errorCount + 1 } ∧
    (process_folder s idx f b).db = s.db ∧
    is_conversation_completed (process_folder s idx f b).db f.folderName = false := by
  have hmain : process_folder s idx f b = { s with errorCount := s.errorCount + 1 } := by
    unfold process_folder
    rw [hfresh]
    simp only [Bool.false_eq_true, if_false]
    rcases hbad with h | ⟨hcf, hmf, m0, tail, hmsgs, hdt⟩
    · rw [if_pos h]
    · have h2 : ¬(f.hasChannelFile = false ∨ f.hasMessagesFile = false) := by
        rw [hcf, hmf]
        simp
      rw [if_neg h2, hmsgs]
      dsimp only
      rw [hdt]
  refine ⟨hmain, by rw [hmain], ?_⟩
  rw [hmain]
  exact hfresh

/-- Conversation whose newest message's timestamp does not parse. -/
def badTsFolder : Folder :=
  ⟨"c7", true, true, dmChannelData, [⟨"not a timestamp", "x", "", "b1"⟩]⟩

/-- Conversation folder missing its message file. -/
def missingFileFolder : Folder := ⟨"c7b", true, false, dmChannelData, []⟩

/-- Witness for C7 on both malformed-input shapes: a gating-check parse
failure and a missing message file. -/
theorem claim_malformed_input_handling_witness :
    process_folder initialState [] badTsFolder false
      = { initialState with errorCount := 1 } ∧
    process_folder initialState [] missingFileFolder false
      = { initialState with errorCount := 1 } :=
  ⟨(claim_malformed_input_handling initialState [] badTsFolder false (by decide)
      (Or.inr ⟨rfl, rfl, ⟨"not a timestamp", "x", "", "b1"⟩, [], rfl, by decide⟩)).1,
   (claim_malformed_input_handling initialState [] missingFileFolder false (by decide)
      (Or.inl (Or.inr rfl))).1⟩

/-! ## Claims C2 and C3 -/

theorem takeWhile_eq_self_of_all (l : List Msg) (h : ∀ x ∈ l, isTargetMsg x = true) :
    l.takeWhile isTargetMsg = l := by
  induction l with
  | nil => rfl
  | cons x xs ih =>
    rw [List.takeWhile_cons, h x (List.mem_cons_self _ _)]
    simp only [if_true]
    rw [ih (fun y hy => h y (List.mem_cons_of_mem _ hy))]

/-- The scan over a list consisting of target-year messages followed by
a non-target message and arbitrary remainder stops at the non-target
message: nothing after it influences the scan state. -/
theorem scanMessages_stop (fn : String) (b : Bool) (acc : ScanAcc) (pre : List Msg)
    (m : Msg) (rest : List Msg) (hpre : ∀ x ∈ pre, isTargetMsg x = true)
    (hm : isTargetMsg m = false) :
    scanMessages fn b acc (pre ++ m :: rest) = scanMessages fn b acc pre := by
  induction pre generalizing acc with
  | nil =>
    unfold isTargetMsg at hm
    simp only [List.nil_append, scanMessages, hm, Bool.false_eq_true, if_false]
  | cons x xs ih =>
    have hx := hpre x (List.mem_cons_self _ _)
    unfold isTargetMsg at hx
    simp only [List.cons_append, scanMessages, hx, if_true]
    exact ih _ (fun y hy => hpre y (List.mem_cons_of_mem _ hy))

theorem channelRowOf_processed (cd : ChannelData) (c a : Nat) :
    (channelRowOf cd c a).processed = true := by
  unfold channelRowOf
  split <;> rfl

/-- Message dated the year after the target year, carrying an emote. -/
def futureMsg : Msg := ⟨"2026-05-01 10:00:00", "<:pepe:77>", "", "n1"⟩

/-- Message dated in the target year, carrying an emote. -/
def targetMsg : Msg := ⟨"2025-03-01 10:00:00", "<:pepe:77>", "", "n2"⟩

/-- Conversation whose newest message is future-dated relative to the
target year and whose second message is in the target year. -/
def futureFolder : Folder := ⟨"c2", true, true, dmChannelData, [futureMsg, targetMsg]⟩

/-- C2 counterexample: the newest message of the fixture conversation
has year 2026 (greater than the target year) and the second has year
2025; no message has year below the target year, so under the claim the
scan must not stop before the 2025 message and must count it.  The code
counts nothing: a year greater than the target year also fails
is_target_year and terminates the scan, and the conversation is marked
completed with zero counts (the emote of the 2025 message is never
tallied). -/
theorem claim_scan_termination_counterexample :
    msgYear futureMsg = some 2026 ∧ msgYear targetMsg = some 2025 ∧
    TARGET_YEAR < 2026 ∧
    (∀ m ∈ futureFolder.messages, ∀ y, msgYear m = some y → ¬y < TARGET_YEAR) ∧
    (scanMessages "c2" false ⟨0, 0, [], [], [], []⟩ futureFolder.messages).count = 0 ∧
    lookupA "c2" (process_folder initialState [] futureFolder false).db.channels
      = some (channelRowOf dmChannelData 0 0) ∧
    (process_folder initialState [] futureFolder false).db.emotes = [] := by
  refine ⟨by decide, by decide, by decide, by decide, by decide, by decide, by decide⟩

/-- C2 amended: when the newest message's year is at least the target
year, the step-4 scan counts exactly the messages in the maximal prefix
whose timestamp year equals the target year, and stops at the first
message whose year is not equal to the target year or whose timestamp
fails to parse — a year greater than the target year also terminates
the scan.  Nothing after the terminating message affects the scan
state. -/
theorem claim_scan_termination_amended (fn : String) (b : Bool) (acc : ScanAcc)
    (pre : List Msg) (m : Msg) (rest : List Msg)
    (hpre : ∀ x ∈ pre, isTargetMsg x = true) (hm : isTargetMsg m = false) :
    scanMessages fn b acc (pre ++ m :: rest) = scanMessages fn b acc pre ∧
    (scanMessages fn b acc (pre ++ m :: rest)).count = acc.count + pre.length := by
  have hstop := scanMessages_stop fn b acc pre m rest hpre hm
  refine ⟨hstop, ?_⟩
  rw [hstop, scanMessages_eq_foldl_takeWhile, takeWhile_eq_self_of_all _ hpre,
    foldl_scanStep_count]

/-- Witness for the amended C2: a target-year message followed by a
future-dated message and another target-year message; the scan stops at
the future-dated message and counts one. -/
theorem claim_scan_termination_amended_witness :
    scanMessages "w2" false ⟨0, 0, [], [], [], []⟩ [targetMsg, futureMsg, targetMsg]
      = scanMessages "w2" false ⟨0, 0, [], [], [], []⟩ [targetMsg] ∧
    (scanMessages "w2" false ⟨0, 0, [], [], [], []⟩ [targetMsg, futureMsg, targetMsg]).count
      = 1 :=
  claim_scan_termination_amended "w2" false ⟨0, 0, [], [], [], []⟩ [targetMsg] futureMsg
    [targetMsg] (by decide) (by decide)

/-- Target-year message with an emote (newest of the C3 fixture). -/
def goodMsgA : Msg := ⟨"2025-03-01 10:00:00", "<:wave:9>", "", "a1"⟩

/-- In-scan message with an unparseable timestamp. -/
def badMsg : Msg := ⟨"garbage", "<:mid:5>", "", "a2"⟩

/-- Target-year message with an emote, after the unparseable one. -/
def goodMsgB : Msg := ⟨"2025-02-01 10:00:00", "<:wave:9>", "", "a3"⟩

/-- Conversation with a target message, then an unparseable timestamp,
then another target message. -/
def badTsMidFolder : Folder := ⟨"c3", true, true, dmChannelData, [goodMsgA, badMsg, goodMsgB]⟩

/-- C3 counterexample: with messages [target, unparseable, target], the
claim says only the unparseable message is skipped, the scan continues
and the later target-year message is still counted, so the conversation
row should carry message count 2 and emote 9 should be tallied twice.
The scan actually breaks at the unparseable timestamp: the row carries
message count 1 and emote 9 is tallied once (the conversation is indeed
still marked completed). -/
theorem claim_inscan_parse_failure_counterexample :
    strptimeYMDHMS badMsg.timestamp = none ∧
    isTargetMsg goodMsgA = true ∧ isTargetMsg goodMsgB = true ∧
    lookupA "c3" (process_folder initialState [] badTsMidFolder false).db.channels
      = some (channelRowOf dmChannelData 1 0) ∧
    (process_folder initialState [] badTsMidFolder false).db.emotes
      = [("9", ⟨"wave", 1⟩)] := by
  refine ⟨by decide, by decide, by decide, by decide, by decide⟩

/-- C3 amended: an in-scan message whose timestamp fails to parse
terminates the scan like any non-target-year message (it is not merely
skipped, and later target-year messages of the conversation are never
counted); the messages counted before it are still flushed and the
conversation is still marked completed.  Formally, processing the
conversation equals processing it with the unparseable message and
everything after it removed, and the completion flag ends up set. -/
theorem claim_inscan_parse_failure_amended (s : AState) (idx : List (String × String))
    (f : Folder) (b : Bool) (pre : List Msg) (bad : Msg) (rest : List Msg)
    (hfresh : is_conversation_completed s.db f.folderName = false)
    (hcf : f.hasChannelFile = true) (hmf : f.hasMessagesFile = true)
    (hmsgs : f.messages = pre ++ bad :: rest)
    (hpre : ∀ x ∈ pre, isTargetMsg x = true) (hpre0 : pre ≠ [])
    (hbad : strptimeYMDHMS bad.timestamp = none) :
    process_folder s idx f b = process_folder s idx { f with messages := pre } b ∧
    is_conversation_completed (process_folder s idx f b).db f.folderName = true := by
  cases pre with
  | nil => exact absurd rfl hpre0
  | cons p0 ptail =>
    obtain ⟨dt0, hdt0, hy0⟩ := strptime_of_isTarget p0 (hpre p0 (List.mem_cons_self _ _))
    have hbadF := isTargetMsg_false_of_parse_none bad hbad
    have h2 : ¬(f.hasChannelFile = false ∨ f.hasMessagesFile = false) := by
      rw [hcf, hmf]
      simp
    have hnotlt : ¬(dt0.year < TARGET_YEAR) := by omega
    have hstop := scanMessages_stop f.folderName b ⟨0, 0, [], [], [], s.db.messages⟩
      (p0 :: ptail) bad rest hpre hbadF
    simp only [List.cons_append] at hstop
    simp only [List.cons_append] at hmsgs
    have hcnt : (scanMessages f.folderName b ⟨0, 0, [], [], [], s.db.messages⟩
        (p0 :: ptail)).count = (p0 :: ptail).length := by
      rw [scanAcc_count, takeWhile_eq_self_of_all _ hpre]
    have hne : ¬((scanMessages f.folderName b ⟨0, 0, [], [], [], s.db.messages⟩
        (p0 :: ptail)).count = 0) := by
      rw [hcnt]
      simp
    have hmain : process_folder s idx f b
        = process_folder s idx { f with messages := p0 :: ptail } b := by
      conv_lhs => unfold process_folder
      conv_rhs => unfold process_folder
      rw [hfresh]
      simp only [Bool.false_eq_true, if_false]
      rw [if_neg h2, if_neg h2, hmsgs]
      dsimp only
      rw [hdt0]
      dsimp only
      rw [if_neg hnotlt, if_neg hnotlt, hstop]
    have hcompleted : is_conversation_completed
        (process_folder s idx { f with messages := p0 :: ptail } b).db f.folderName
          = true := by
      unfold process_folder
      rw [hfresh]
      simp only [Bool.false_eq_true, if_false]
      rw [if_neg h2]
      rw [hdt0]
      dsimp only
      rw [if_neg hnotlt, if_neg hne]
      unfold is_conversation_completed
      rw [mark_processed_lookup_self]
      simp [channelRowOf_processed]
    exact ⟨hmain, by rw [hmain]; exact hcompleted⟩

/-- Witness for the amended C3 on the fixture conversation. -/
theorem claim_inscan_parse_failure_amended_witness :
    process_folder initialState [] badTsMidFolder false
      = process_folder initialState []
          { badTsMidFolder with messages := [goodMsgA] } false ∧
    is_conversation_completed
      (process_folder initialState [] badTsMidFolder false).db "c3" = true :=
  claim_inscan_parse_failure_amended initialState [] badTsMidFolder false [goodMsgA]
    badMsg [goodMsgB] (by decide) rfl rfl rfl (by decide) (by decide) (by decide)

/-! ## Claim C10 -/

theorem isTarget_of_mem_takeWhile {l : List Msg} {m : Msg}
    (h : m ∈ l.takeWhile isTargetMsg) : isTargetMsg m = true := by
  induction l with
  | nil => simp [List.takeWhile] at h
  | cons x xs ih =>
    rw [List.takeWhile_cons] at h
    by_cases hx : isTargetMsg x
    · rw [hx] at h
      simp only [if_true] at h
      rcases List.mem_cons.mp h with h2 | h2
      · rw [h2]
        exact hx
      · exact ih h2
    · simp only [Bool.not_eq_true] at hx
      rw [hx] at h
      simp at h

/-- C10: message-record insertion discipline.  An existing record for a
message identity is never overwritten (insert-or-ignore keyed on the
message identity); with detail storage disabled the messages table does
not change at all; and every record that appears during a
process_folder call carries year equal to the target year — records are
inserted only for messages whose timestamp year equals the target year,
even though the record schema carries a general year column. -/
theorem claim_message_record_insertion (s : AState) (idx : List (String × String))
    (f : Folder) (b : Bool) (key : String) :
    (∀ r, lookupA key s.db.messages = some r →
      lookupA key (process_folder s idx f b).db.messages = some r) ∧
    (b = false → (process_folder s idx f b).db.messages = s.db.messages) ∧
    (lookupA key s.db.messages = none →
      ∀ r, lookupA key (process_folder s idx f b).db.messages = some r →
        r.year = some TARGET_YEAR) := by
  have hP : ∀ (tnew : List (String × MessageRow)), tnew = s.db.messages →
      ((∀ r, lookupA key s.db.messages = some r → lookupA key tnew = some r) ∧
       (b = false → tnew = s.db.messages) ∧
       (lookupA key s.db.messages = none →
         ∀ r, lookupA key tnew = some r → r.year = some TARGET_YEAR)) := by
    intro tnew he
    subst he
    exact ⟨fun r h => h, fun _ => rfl,
      fun hn r hsome => by rw [hn] at hsome; exact Option.noConfusion hsome⟩
  by_cases h1 : is_conversation_completed s.db f.folderName
  · rw [process_folder_of_completed _ _ _ _ h1]
    exact hP _ rfl
  · rw [Bool.not_eq_true] at h1
    unfold process_folder
    rw [h1]
    simp only [Bool.false_eq_true, if_false]
    by_cases h2 : f.hasChannelFile = false ∨ f.hasMessagesFile = false
    · rw [if_pos h2]
      exact hP _ rfl
    · rw [if_neg h2]
      cases hmsgs : f.messages with
      | nil => exact hP _ rfl
      | cons first rest =>
        dsimp only
        cases hdt : strptimeYMDHMS first.timestamp with
        | none => exact hP _ rfl
        | some dt =>
          dsimp only
          by_cases h3 : dt.year < TARGET_YEAR
          · rw [if_pos h3]
            exact hP _ rfl
          · rw [if_neg h3]
            by_cases h4 :
                (scanMessages f.folderName b ⟨0, 0, [], [], [], s.db.messages⟩
                  (first :: rest)).count = 0
            · rw [if_pos h4]
              refine hP _ ?_
              rw [scanAcc_count] at h4
              have htw0 : (first :: rest).takeWhile isTargetMsg = [] :=
                List.eq_nil_of_length_eq_zero h4
              rw [scanAcc_msgTable, htw0]
              rfl
            · rw [if_neg h4]
              refine ⟨?_, ?_, ?_⟩
              · intro r h
                rw [scanAcc_msgTable]
                exact foldl_msgTable_of_some b f.folderName _ _ key r h
              · intro hb
                subst hb
                rw [scanAcc_msgTable]
                exact foldl_msgTable_false f.folderName _ _
              · intro hn r hsome
                rw [scanAcc_msgTable] at hsome
                rcases foldl_msgTable_new_cases b f.folderName _ _ key r hsome with
                  h5 | ⟨m, hm, he⟩
                · rw [hn] at h5
                  exact Option.noConfusion h5
                · rw [he]
                  exact msgRowOf_year_of_target f.folderName m (isTarget_of_mem_takeWhile hm)

/-- Conversation with one target-year message, used with detail storage
enabled. -/
def msgStoreFolder : Folder :=
  ⟨"c10", true, true, dmChannelData, [⟨"2025-03-01 10:00:00", "hi", "", "m10"⟩]⟩

/-- The record the scan inserts for the message of msgStoreFolder. -/
def insertedRow : MessageRow :=
  ⟨"c10", "2025-03-01 10:00:00", some 2025, some 3, some 1, true, false⟩

/-- Witness for C10: the record inserted for the concrete target-year
message carries year 2025, and with detail storage disabled nothing is
inserted. -/
theorem claim_message_record_insertion_witness :
    insertedRow.year = some TARGET_YEAR ∧
    lookupA "m10" (process_folder initialState [] msgStoreFolder false).db.messages
      = none :=
  ⟨(claim_message_record_insertion initialState [] msgStoreFolder true "m10").2.2
      (by decide) insertedRow (by decide),
   by
     rw [(claim_message_record_insertion initialState [] msgStoreFolder false "m10").2.1
       rfl]
     rfl⟩

/-! ## Claim C5 -/

/-- C5 counterexample: the fixture conversation [2026-dated message,
2025-dated message carrying <:pepe:77>] is newest-first with every
timestamp parseable, both files present, and it is processed fresh from
the empty store; the token pepe:77 occurs exactly once across its
target-year messages (k = 1).  Yet after one full pass the stored usage
count for identity 77 is 0, not k: the scan breaks at the future-dated
newest message before reaching the target-year message (the same
under-count behind the corrected scan-termination claim), and the
conversation is marked completed, so no later pass can repair the
count. -/
theorem claim_emote_count_exactness_counterexample :
    futureFolder.messages = [futureMsg, targetMsg] ∧
    msgYear futureMsg = some 2026 ∧ msgYear targetMsg = some 2025 ∧
    futureFolder.hasChannelFile = true ∧ futureFolder.hasMessagesFile = true ∧
    is_conversation_completed initialState.db futureFolder.folderName = false ∧
    emoteOccurrencesInFolder "77" futureFolder = 1 ∧
    emoteUsage (runPass initialState [] [futureFolder] false).db.emotes "77" = 0 ∧
    is_conversation_completed (runPass initialState [] [futureFolder] false).db
      futureFolder.folderName = true := by
  refine ⟨rfl, by decide, by decide, rfl, rfl, by decide, by decide, by decide, by decide⟩

/-- C5 amended: after one full pass from a store in which none of the
conversations is completed yet (distinct folder names, both files
present), the usage count stored for an emote identity grows by exactly
the total number of occurrences of that identity across the SCANNED
messages of all conversations — the maximal prefix of each newest-first
message list whose timestamp year equals the target year — so starting
from an empty store, a token occurring k times across the scanned
messages ends with count exactly k.  (Occurrences in target-year
messages the scan never reaches, because a message with a different or
unparseable year precedes them, are not counted.)  The analogous
statement holds for attachment extensions.  The per-conversation flush
is aggregated exactly as claimed: the flushed tally list carries each
distinct emote identity (and each distinct extension) exactly once,
with delta equal to that conversation's total scanned occurrence count,
not one increment per occurrence. -/
theorem claim_emote_count_exactness_amended (s : AState) (idx : List (String × String))
    (folders : List Folder) (b : Bool) (eid e : String)
    (hnd : (folders.map Folder.folderName).Nodup)
    (hfresh : ∀ f ∈ folders, is_conversation_completed s.db f.folderName = false)
    (hfiles : ∀ f ∈ folders, f.hasChannelFile = true ∧ f.hasMessagesFile = true) :
    emoteUsage (runPass s idx folders b).db.emotes eid
      = emoteUsage s.db.emotes eid + (folders.map (emoteOccurrencesScanned eid)).sum ∧
    extUsage (runPass s idx folders b).db.fileTypes e
      = extUsage s.db.fileTypes e + (folders.map (extOccurrencesScanned e)).sum ∧
    (∀ f ∈ folders,
      ((perFolderEmoteFlush f b).map Prod.fst).Nodup ∧
      (∀ p ∈ perFolderEmoteFlush f b, p.2 = emoteOccurrencesScanned p.1 f) ∧
      ((perFolderExtFlush f b).map Prod.fst).Nodup ∧
      (∀ p ∈ perFolderExtFlush f b, p.2 = extOccurrencesScanned p.1 f)) := by
  refine ⟨runPass_emoteUsage folders s idx b eid hnd hfresh hfiles,
    runPass_extUsage folders s idx b e hnd hfresh hfiles, ?_⟩
  intro f hf
  have hEm : perFolderEmoteFlush f b
      = (f.messages.takeWhile isTargetMsg).foldl emoteCountsStep [] := by
    unfold perFolderEmoteFlush
    rw [scanAcc_emoteCounts]
  have hEx : perFolderExtFlush f b
      = (f.messages.takeWhile isTargetMsg).foldl
          (fun t m => if attachFlag m then fileTypeCountsStep t m else t) [] := by
    unfold perFolderExtFlush
    rw [scanAcc_fileTypeCounts]
  have hndE : ((perFolderEmoteFlush f b).map Prod.fst).Nodup := by
    rw [hEm]
    exact nodup_keys_foldl_emoteCountsStep _ _ (by simp)
  have hndX : ((perFolderExtFlush f b).map Prod.fst).Nodup := by
    rw [hEx]
    exact nodup_keys_foldl_fileTypeCountsStep _ _ (by simp)
  refine ⟨hndE, ?_, hndX, ?_⟩
  · intro p hp
    have hl := lookupA_eq_of_mem_nodup hndE
      (show (p.1, p.2) ∈ perFolderEmoteFlush f b from hp)
    have h2 : (lookupA p.1 (perFolderEmoteFlush f b)).getD 0 = p.2 := by
      rw [hl]
      rfl
    rw [← h2, hEm, lookupA_getD_foldl_emoteCountsStep]
    unfold emoteOccurrencesScanned scannedMessages
    simp [lookupA]
  · intro p hp
    have hl := lookupA_eq_of_mem_nodup hndX
      (show (p.1, p.2) ∈ perFolderExtFlush f b from hp)
    have h2 : (lookupA p.1 (perFolderExtFlush f b)).getD 0 = p.2 := by
      rw [hl]
      rfl
    rw [← h2, hEx, lookupA_getD_foldl_fileTypeCountsStep]
    unfold extOccurrencesScanned scannedMessages
    simp [lookupA]

/-- Conversation with one target-year message containing the emote token
foo twice and one attachment. -/
def emoteFolder : Folder :=
  ⟨"c5", true, true, dmChannelData,
    [⟨"2025-04-01 10:00:00", "<:foo:123> and <:foo:123>", "a.png", "t1"⟩]⟩

/-- Witness for the amended C5: starting from the empty store, after one
full pass over the fixture conversation (whose single message is scanned
and carries the token twice) the emote identity 123 has usage count
exactly 2, and extension png has count 1. -/
theorem claim_emote_count_exactness_amended_witness :
    emoteUsage (runPass initialState [] [emoteFolder] false).db.emotes "123" = 2 ∧
    extUsage (runPass initialState [] [emoteFolder] false).db.fileTypes "png" = 1 := by
  have h := claim_emote_count_exactness_amended initialState [] [emoteFolder] false
    "123" "png" (by decide) (by decide) (by decide)
  exact ⟨by rw [h.1]; decide, by rw [h.2.1]; decide⟩

end DiscordRecap
